import Mathlib

/-!
Verification development for the cache-or-fetch data layer of
`src/ds/data.py` in the `bmw-dcf-valuation-python` repository.

The Python module is a read-through file cache over a remote financial-data
provider (yfinance).  We give a shallow embedding:

* a pandas `DataFrame` becomes `Table` (row index labels, column labels,
  cell values kept at the textual level at which CSV serialization operates);
* the cache directory becomes a function `Cache : String → Option Artifact`,
  where an `Artifact` is the structured content of one cache file (a CSV
  grid, or a JSON document for company info);
* the remote provider (`yf.download`, `yf.Ticker` attribute access) becomes
  an oracle `Provider`; every remote access performed by an operation is
  recorded in a returned `List Query`;
* filesystem writes (`df.to_csv`, `json.dump`) can fail; a failing write
  raises in Python, which we model by returning `Except.error ()`, so each
  operation returns `Except Unit (result × Cache × List Query)`.

Dates: `pd.to_datetime` applied to CSV headers / `parse_dates=True` applied
to the index is modelled by `Date.parse` on the ISO `YYYY-MM-DD` form, the
form in which this program's own cache files render dates; a header that is
not of that shape does not parse, and parsing an index/column set is
all-or-nothing, as for a pandas `Index`.
-/

namespace DcfData

/-! ### Dates and labels -/

structure Date where
  y : Nat
  m : Nat
  d : Nat
deriving DecidableEq

/-- The dates this model renders and re-parses: what fits in `YYYY-MM-DD`. -/
def Date.Valid (dt : Date) : Prop :=
  dt.y < 10000 ∧ 1 ≤ dt.m ∧ dt.m ≤ 12 ∧ 1 ≤ dt.d ∧ dt.d ≤ 31

instance (dt : Date) : Decidable dt.Valid := by
  unfold Date.Valid
  infer_instance

def digitChar (n : Nat) : Char := Char.ofNat (48 + n % 10)

def digitVal? (c : Char) : Option Nat :=
  if 48 ≤ c.toNat ∧ c.toNat ≤ 57 then some (c.toNat - 48) else none

def render2 (n : Nat) : List Char := [digitChar (n / 10 % 10), digitChar (n % 10)]

def render4 (n : Nat) : List Char :=
  [digitChar (n / 1000 % 10), digitChar (n / 100 % 10), digitChar (n / 10 % 10),
   digitChar (n % 10)]

/-- ISO rendering `YYYY-MM-DD`, the form pandas writes for (midnight) dates. -/
def Date.render (dt : Date) : String :=
  String.mk (render4 dt.y ++ '-' :: (render2 dt.m ++ '-' :: render2 dt.d))

/-- Model of `pd.to_datetime` on a single label: strict ISO `YYYY-MM-DD`. -/
def Date.parse (s : String) : Option Date :=
  match s.data with
  | [y1, y2, y3, y4, '-', m1, m2, '-', d1, d2] =>
    match digitVal? y1, digitVal? y2, digitVal? y3, digitVal? y4,
          digitVal? m1, digitVal? m2, digitVal? d1, digitVal? d2 with
    | some a, some b, some c, some d, some e, some f, some g, some h =>
      if 1 ≤ 10 * e + f ∧ 10 * e + f ≤ 12 ∧ 1 ≤ 10 * g + h ∧ 10 * g + h ≤ 31 then
        some ⟨1000 * a + 100 * b + 10 * c + d, 10 * e + f, 10 * g + h⟩
      else none
    | _, _, _, _, _, _, _, _ => none
  | _ => none

theorem digitVal?_digitChar {n : Nat} (h : n < 10) : digitVal? (digitChar n) = some n := by
  interval_cases n <;> rfl

theorem Date.parse_render {dt : Date} (h : dt.Valid) : Date.parse dt.render = some dt := by
  obtain ⟨y, m, d⟩ := dt
  obtain ⟨hy, hm1, hm2, hd1, hd2⟩ := h
  replace hy : y < 10000 := hy
  replace hm1 : 1 ≤ m := hm1
  replace hm2 : m ≤ 12 := hm2
  replace hd1 : 1 ≤ d := hd1
  replace hd2 : d ≤ 31 := hd2
  simp only [Date.render, render4, render2]
  show Date.parse (String.mk _) = _
  rw [Date.parse]
  simp only [List.cons_append, List.nil_append]
  rw [digitVal?_digitChar (by omega), digitVal?_digitChar (by omega),
      digitVal?_digitChar (by omega), digitVal?_digitChar (by omega),
      digitVal?_digitChar (by omega), digitVal?_digitChar (by omega),
      digitVal?_digitChar (by omega), digitVal?_digitChar (by omega)]
  dsimp only
  rw [if_pos (by omega)]
  simp only [Option.some.injEq, Date.mk.injEq]
  refine ⟨by omega, by omega, by omega⟩

/-- A row/column label: either a raw string or a parsed date
(pandas: `object` vs `datetime64` index entries). -/
inductive Label where
  | str (s : String)
  | date (dt : Date)
deriving DecidableEq

def Label.render : Label → String
  | .str s => s
  | .date dt => dt.render

/-- All-or-nothing date parsing of a list of labels, as `pd.to_datetime`
behaves on a whole `Index`: one failure makes the whole call raise. -/
def parseAllDates : List String → Option (List Date)
  | [] => some []
  | s :: rest =>
    match Date.parse s, parseAllDates rest with
    | some d, some ds => some (d :: ds)
    | _, _ => none

/-- Header reinterpretation with the `try/except: pass` fallback of
`data.py` lines 75-78 / 148-151: on failure the raw strings are kept. -/
def reparseLabels (xs : List String) : List Label :=
  match parseAllDates xs with
  | some ds => ds.map Label.date
  | none => xs.map Label.str

/-! ### Tables, artifacts and serialization adapters

A pandas `DataFrame` is modelled at the level at which CSV round-trips
operate: row index labels, column labels, and cell values as the text that
`to_csv` writes / `read_csv` reads back.  `df.empty` is true iff one of the
two axes has length zero. -/

structure Table where
  index : List Label
  cols : List Label
  rows : List (List String)
deriving DecidableEq

def Table.emptyT : Table := ⟨[], [], []⟩

/-- `df.empty` (pandas: any axis of length 0). -/
def Table.empty? (t : Table) : Bool := t.index.isEmpty || t.cols.isEmpty

/-- The structured content of one cache file: a CSV grid (header row plus
data rows) or a JSON document (`{ticker}_info.json`). -/
inductive Artifact where
  | grid (header : List String) (rows : List (List String))
  | doc (info : List (String × String))
deriving DecidableEq

/-- `df.to_csv(cache_file)` (default `index=True`): the index is written as
the leading column; the index-name cell of the header row is modelled as
`""` (no decoder below looks at it). -/
def encodeIndexed (t : Table) : Artifact :=
  .grid ("" :: t.cols.map Label.render)
    (List.zipWith (fun i r => Label.render i :: r) t.index t.rows)

/-- `df.to_csv(cache_file, index=False)` (holders/recommendations). -/
def encodeFlat (t : Table) : Artifact :=
  .grid (t.cols.map Label.render) t.rows

/-- `pd.read_csv(cache_file, index_col=0, parse_dates=True)` as used by
`get_stock_data`: the leading column becomes the index and is re-parsed to
dates (all-or-nothing); column headers stay strings.  A `.doc` artifact at a
`.csv` path never occurs in program-written caches; reading one is
totalized to the empty table. -/
def readPrice : Artifact → Table
  | .grid h rows =>
      { index := reparseLabels (rows.map (fun r => r.headD "")),
        cols := (h.tail).map Label.str,
        rows := rows.map List.tail }
  | .doc _ => Table.emptyT

/-- `pd.read_csv(cache_file, index_col=0)` followed by the guarded
`pd.to_datetime(columns)` of `data.py` lines 73-78 / 147-151: line-item
labels stay strings, column headers are opportunistically re-parsed with a
silent fallback. -/
def readStmt : Artifact → Table
  | .grid h rows =>
      { index := rows.map (fun r => Label.str (r.headD "")),
        cols := reparseLabels h.tail,
        rows := rows.map List.tail }
  | .doc _ => Table.emptyT

/-- `pd.read_csv(cache_file)` as used by `get_holders_and_recommendations`:
no index column, so pandas synthesizes a `RangeIndex`. -/
def readFlat : Artifact → Table
  | .grid h rows =>
      { index := (List.range rows.length).map (fun i => Label.str (toString i)),
        cols := h.map Label.str,
        rows := rows }
  | .doc _ => Table.emptyT

/-- `json.load` of a cache file written by `json.dump` (company info). -/
def readDoc : Artifact → List (String × String)
  | .doc i => i
  | .grid _ _ => []

/-! ### Cache store, provider oracle, environment -/

/-- The cache directory: path → content of the file at that path, if any.
`cache_file.exists()` is `(c path).isSome`. -/
def Cache : Type := String → Option Artifact

def Cache.write (c : Cache) (p : String) (a : Artifact) : Cache :=
  fun q => if q = p then some a else c q

theorem Cache.write_self (c : Cache) (p : String) (a : Artifact) :
    Cache.write c p a p = some a := by simp [Cache.write]

theorem Cache.write_ne (c : Cache) {p q : String} (a : Artifact) (h : q ≠ p) :
    Cache.write c p a q = c q := by simp [Cache.write, h]

/-- The remote provider (yfinance), an oracle: `download` is `yf.download`;
`attr` is attribute access on a `yf.Ticker` for the statement bundles
(yfinance returns a DataFrame, possibly empty); `attrOpt` is attribute
access for holders/recommendations, which may yield `None`; `info` is
`t.info`. -/
structure Provider where
  download : String → String → Option String → Table
  attr : String → String → Table
  attrOpt : String → String → Option Table
  info : String → List (String × String)

/-- `writeOk p = false` models a filesystem write to path `p` raising. -/
structure Env where
  provider : Provider
  writeOk : String → Bool

/-- One remote call, as recorded in the query log an operation returns. -/
inductive Query where
  | download (ticker start : String) (stop : Option String)
  | attr (ticker a : String)
  | info (ticker : String)
deriving DecidableEq

/-- `df.to_csv(path)` / `json.dump`: succeeds and installs the artifact, or
raises (modelled as `Except.error ()`), exactly as decided by `writeOk`. -/
def writeCache (env : Env) (c : Cache) (p : String) (a : Artifact) : Except Unit Cache :=
  if env.writeOk p then .ok (Cache.write c p a) else .error ()

/-! ### Cache paths

`RAW_DATA_DIR` is imported by `data.py` from `src/ds/paths.py`, which is not
in the source snapshot. -/

/-- Modelled from the spec: `paths.RAW_DATA_DIR`, the fixed root directory
under which every cache artifact lives (spec section 4.1 "a fixed root
directory"; the docstrings say `data/raw/{ticker}.csv`).  Path join `/` is
string concatenation here.  No claim depends on the concrete value. -/
def RAW_DATA_DIR : String := "data/raw/"

def keyPath (ticker suffix : String) : String := RAW_DATA_DIR ++ (ticker ++ suffix)

/-- `RAW_DATA_DIR / f"{ticker}.csv"` (data.py line 24). -/
def pricePath (ticker : String) : String := keyPath ticker ".csv"

/-- `RAW_DATA_DIR / f"{ticker}_{name}.csv"` (data.py lines 68 and 185). -/
def subPath (ticker name : String) : String := keyPath ticker ("_" ++ name ++ ".csv")

/-- `RAW_DATA_DIR / f"{ticker}_quarterly_{name}.csv"` (data.py line 143). -/
def quarterlyPath (ticker name : String) : String :=
  keyPath ticker ("_quarterly_" ++ name ++ ".csv")

/-- `RAW_DATA_DIR / f"{ticker}_info.json"` (data.py line 102). -/
def infoPath (ticker : String) : String := keyPath ticker "_info.json"

theorem keyPath_ne (t : String) {s1 s2 : String} (h : s1 ≠ s2) :
    keyPath t s1 ≠ keyPath t s2 := by
  intro he
  apply h
  have hd := congrArg String.data he
  simp only [keyPath, String.data_append] at hd
  exact String.ext (List.append_cancel_left (List.append_cancel_left hd))

/-! ### The acquisition operations of `data.py`

Each operation takes the environment and current cache and returns
`Except Unit (result × final cache × remote-call log)`.  The `yf.download`
keyword `multi_level_index=False` and the `droplevel` normalization of
lines 36-37 are absorbed into the provider oracle: `Provider.download`
already yields the single-level table the rest of the function consumes. -/

/-- `get_stock_data` (data.py lines 9-44). -/
def get_stock_data (env : Env) (c : Cache) (ticker start : String)
    (stop : Option String) (use_cache : Bool) :
    Except Unit (Table × Cache × List Query) :=
  match use_cache, c (pricePath ticker) with
  | true, some a => .ok (readPrice a, c, [])
  | _, _ =>
    if (env.provider.download ticker start stop).empty? then
      .ok (env.provider.download ticker start stop, c, [Query.download ticker start stop])
    else
      match writeCache env c (pricePath ticker)
          (encodeIndexed (env.provider.download ticker start stop)) with
      | .error e => .error e
      | .ok c2 =>
          .ok (env.provider.download ticker start stop, c2, [Query.download ticker start stop])

/-- The `types` dict of `get_company_financials` (data.py lines 59-63). -/
def annual_types : List (String × String) :=
  [("income_stmt", "financials"), ("balance_sheet", "balance_sheet"),
   ("cashflow", "cashflow")]

/-- The `types` dict of `get_quarterly_financials` (data.py lines 134-138). -/
def quarterly_types : List (String × String) :=
  [("income_stmt", "quarterly_financials"), ("balance_sheet", "quarterly_balance_sheet"),
   ("cashflow", "quarterly_cashflow")]

/-- The `types` dict of `get_holders_and_recommendations` (lines 176-180). -/
def holder_types : List (String × String) :=
  [("institutional_holders", "institutional_holders"), ("major_holders", "major_holders"),
   ("recommendations", "recommendations")]

/-- The `for name, yf_attr in types.items()` loop shared by
`get_company_financials` and `get_quarterly_financials` (lines 67-86 /
142-159), threading the accumulated bundle, the cache and the call log. -/
def stmtLoop (env : Env) (ticker : String) (pf : String → String) (use_cache : Bool) :
    List (String × String) → List (String × Table) × Cache × List Query →
    Except Unit (List (String × Table) × Cache × List Query)
  | [], acc => .ok acc
  | (name, yfAttr) :: rest, (fin, c, log) =>
    match use_cache, c (pf name) with
    | true, some a =>
        stmtLoop env ticker pf use_cache rest (fin ++ [(name, readStmt a)], c, log)
    | _, _ =>
        if (env.provider.attr ticker yfAttr).empty? then
          stmtLoop env ticker pf use_cache rest
            (fin ++ [(name, env.provider.attr ticker yfAttr)], c,
             log ++ [Query.attr ticker yfAttr])
        else
          match writeCache env c (pf name)
              (encodeIndexed (env.provider.attr ticker yfAttr)) with
          | .error e => .error e
          | .ok c2 =>
              stmtLoop env ticker pf use_cache rest
                (fin ++ [(name, env.provider.attr ticker yfAttr)], c2,
                 log ++ [Query.attr ticker yfAttr])

/-- `get_company_financials` (data.py lines 47-88). -/
def get_company_financials (env : Env) (c : Cache) (ticker : String) (use_cache : Bool) :
    Except Unit (List (String × Table) × Cache × List Query) :=
  stmtLoop env ticker (subPath ticker) use_cache annual_types ([], c, [])

/-- `get_quarterly_financials` (data.py lines 122-161). -/
def get_quarterly_financials (env : Env) (c : Cache) (ticker : String) (use_cache : Bool) :
    Except Unit (List (String × Table) × Cache × List Query) :=
  stmtLoop env ticker (quarterlyPath ticker) use_cache quarterly_types ([], c, [])

/-- `get_company_info` (data.py lines 91-119); `if info:` is dict
truthiness, i.e. non-emptiness. -/
def get_company_info (env : Env) (c : Cache) (ticker : String) (use_cache : Bool) :
    Except Unit (List (String × String) × Cache × List Query) :=
  match use_cache, c (infoPath ticker) with
  | true, some a => .ok (readDoc a, c, [])
  | _, _ =>
    if (env.provider.info ticker).isEmpty then
      .ok (env.provider.info ticker, c, [Query.info ticker])
    else
      match writeCache env c (infoPath ticker) (.doc (env.provider.info ticker)) with
      | .error e => .error e
      | .ok c2 => .ok (env.provider.info ticker, c2, [Query.info ticker])

/-- The loop of `get_holders_and_recommendations` (lines 184-199):
`if df is not None and not df.empty:` caches and binds `df`; otherwise a
fresh empty `pd.DataFrame()` is bound and nothing is written. -/
def holdLoop (env : Env) (ticker : String) (use_cache : Bool) :
    List (String × String) → List (String × Table) × Cache × List Query →
    Except Unit (List (String × Table) × Cache × List Query)
  | [], acc => .ok acc
  | (name, yfAttr) :: rest, (fin, c, log) =>
    match use_cache, c (subPath ticker name) with
    | true, some a =>
        holdLoop env ticker use_cache rest (fin ++ [(name, readFlat a)], c, log)
    | _, _ =>
        match env.provider.attrOpt ticker yfAttr with
        | some df =>
          if df.empty? then
            holdLoop env ticker use_cache rest
              (fin ++ [(name, Table.emptyT)], c, log ++ [Query.attr ticker yfAttr])
          else
            match writeCache env c (subPath ticker name) (encodeFlat df) with
            | .error e => .error e
            | .ok c2 =>
                holdLoop env ticker use_cache rest
                  (fin ++ [(name, df)], c2, log ++ [Query.attr ticker yfAttr])
        | none =>
            holdLoop env ticker use_cache rest
              (fin ++ [(name, Table.emptyT)], c, log ++ [Query.attr ticker yfAttr])

/-- `get_holders_and_recommendations` (data.py lines 164-201). -/
def get_holders_and_recommendations (env : Env) (c : Cache) (ticker : String)
    (use_cache : Bool) :
    Except Unit (List (String × Table) × Cache × List Query) :=
  holdLoop env ticker use_cache holder_types ([], c, [])

/-! ### Treasury yield -/

/-- A pandas `Series`, as produced by `df["Close"]`. -/
structure Series where
  index : List Label
  values : List String
deriving DecidableEq

/-- `df[name]` column selection: the first column whose label is the string
`name`; raises `KeyError` (modelled as `.error ()`) when absent. -/
def Table.getCol (t : Table) (name : String) : Except Unit Series :=
  match t.cols.findIdx? (fun l => l = Label.str name) with
  | some i => .ok ⟨t.index, t.rows.map (fun r => r.getD i "")⟩
  | none => .error ()

/-- `get_treasury_yield` (data.py lines 204-213). -/
def get_treasury_yield (env : Env) (c : Cache) (ticker start : String)
    (stop : Option String) (use_cache : Bool) :
    Except Unit (Series × Cache × List Query) :=
  match get_stock_data env c ticker start stop use_cache with
  | .error e => .error e
  | .ok (df, c2, log) =>
    match Table.getCol df "Close" with
    | .error e => .error e
    | .ok s => .ok (s, c2, log)

/-- The default arguments of `get_stock_data`'s Python signature
(data.py line 10): `start`, `end`, `use_cache`. -/
def get_stock_data_defaults : String × Option String × Bool := ("2023-01-01", none, true)

/-- The default arguments of `get_treasury_yield`'s Python signature
(data.py line 205): `ticker`, `start`, `end`, `use_cache`. -/
def get_treasury_yield_defaults : String × String × Option String × Bool :=
  ("^TNX", "2019-01-01", none, true)

/-! ### A uniform view over the five data kinds

The spec's claims quantify over "every data kind"; `fetch` dispatches to
the five operations above (`PriceSeries` with the Python default
`start`/`end`).  The helper functions below read the per-kind cache paths,
remote queries, fresh (provider-derived) result and encode/decode
round-trip off the operations; they are used to state the claims. -/

inductive DataKind where
  | priceSeries
  | annualStatements
  | quarterlyStatements
  | companyInfo
  | holdersRecs
deriving DecidableEq

inductive FetchResult where
  | table (t : Table)
  | bundle (m : List (String × Table))
  | infoRes (i : List (String × String))
deriving DecidableEq

def fetch (env : Env) (c : Cache) (k : DataKind) (ticker : String) (use_cache : Bool) :
    Except Unit (FetchResult × Cache × List Query) :=
  match k with
  | .priceSeries =>
    match get_stock_data env c ticker "2023-01-01" none use_cache with
    | .error e => .error e
    | .ok (t, c2, log) => .ok (.table t, c2, log)
  | .annualStatements =>
    match get_company_financials env c ticker use_cache with
    | .error e => .error e
    | .ok (m, c2, log) => .ok (.bundle m, c2, log)
  | .quarterlyStatements =>
    match get_quarterly_financials env c ticker use_cache with
    | .error e => .error e
    | .ok (m, c2, log) => .ok (.bundle m, c2, log)
  | .companyInfo =>
    match get_company_info env c ticker use_cache with
    | .error e => .error e
    | .ok (i, c2, log) => .ok (.infoRes i, c2, log)
  | .holdersRecs =>
    match get_holders_and_recommendations env c ticker use_cache with
    | .error e => .error e
    | .ok (m, c2, log) => .ok (.bundle m, c2, log)

/-- The cache paths a kind's operation touches for a given identifier. -/
def kindPaths (k : DataKind) (t : String) : List String :=
  match k with
  | .priceSeries => [pricePath t]
  | .annualStatements => annual_types.map (fun nt => subPath t nt.1)
  | .quarterlyStatements => quarterly_types.map (fun nt => quarterlyPath t nt.1)
  | .companyInfo => [infoPath t]
  | .holdersRecs => holder_types.map (fun nt => subPath t nt.1)

/-- The remote calls a kind's operation makes on a full cache miss. -/
def kindQueries (k : DataKind) (t : String) : List Query :=
  match k with
  | .priceSeries => [Query.download t "2023-01-01" none]
  | .annualStatements => annual_types.map (fun nt => Query.attr t nt.2)
  | .quarterlyStatements => quarterly_types.map (fun nt => Query.attr t nt.2)
  | .companyInfo => [Query.info t]
  | .holdersRecs => holder_types.map (fun nt => Query.attr t nt.2)

/-- The in-memory result assembled from fresh provider responses (the
result of a full-miss call): for holders, a `None`/empty response is bound
as an empty table, per lines 194-199. -/
def freshResult (env : Env) (k : DataKind) (t : String) : FetchResult :=
  match k with
  | .priceSeries => .table (env.provider.download t "2023-01-01" none)
  | .annualStatements =>
      .bundle (annual_types.map (fun nt => (nt.1, env.provider.attr t nt.2)))
  | .quarterlyStatements =>
      .bundle (quarterly_types.map (fun nt => (nt.1, env.provider.attr t nt.2)))
  | .companyInfo => .infoRes (env.provider.info t)
  | .holdersRecs =>
      .bundle (holder_types.map (fun nt => (nt.1,
        match env.provider.attrOpt t nt.2 with
        | some df => if df.empty? then Table.emptyT else df
        | none => Table.emptyT)))

/-- The provider has a non-empty response for every component of the kind. -/
def ProviderNonEmpty (env : Env) (k : DataKind) (t : String) : Prop :=
  match k with
  | .priceSeries => (env.provider.download t "2023-01-01" none).empty? = false
  | .annualStatements => ∀ nt ∈ annual_types, (env.provider.attr t nt.2).empty? = false
  | .quarterlyStatements => ∀ nt ∈ quarterly_types, (env.provider.attr t nt.2).empty? = false
  | .companyInfo => (env.provider.info t).isEmpty = false
  | .holdersRecs => ∀ nt ∈ holder_types,
      ∃ df, env.provider.attrOpt t nt.2 = some df ∧ df.empty? = false

/-- The provider's response is empty for every component of the kind
(an unknown or delisted identifier). -/
def ProviderEmpty (env : Env) (k : DataKind) (t : String) : Prop :=
  match k with
  | .priceSeries => (env.provider.download t "2023-01-01" none).empty? = true
  | .annualStatements => ∀ nt ∈ annual_types, (env.provider.attr t nt.2).empty? = true
  | .quarterlyStatements => ∀ nt ∈ quarterly_types, (env.provider.attr t nt.2).empty? = true
  | .companyInfo => (env.provider.info t).isEmpty = true
  | .holdersRecs => ∀ nt ∈ holder_types, env.provider.attrOpt t nt.2 = none ∨
      ∃ df, env.provider.attrOpt t nt.2 = some df ∧ df.empty? = true

/-- One round trip through the kind's serialization adapter: encode on the
cache write, decode on the cached read. -/
def roundTripK (k : DataKind) (r : FetchResult) : FetchResult :=
  match k, r with
  | .priceSeries, .table t => .table (readPrice (encodeIndexed t))
  | .annualStatements, .bundle m =>
      .bundle (m.map (fun nt => (nt.1, readStmt (encodeIndexed nt.2))))
  | .quarterlyStatements, .bundle m =>
      .bundle (m.map (fun nt => (nt.1, readStmt (encodeIndexed nt.2))))
  | .holdersRecs, .bundle m =>
      .bundle (m.map (fun nt => (nt.1, readFlat (encodeFlat nt.2))))
  | .companyInfo, .infoRes i => .infoRes (readDoc (.doc i))
  | _, r => r

/-! ### Claim C1: read-through caching round trip -/

theorem fetch_roundtrip_aux :
    ∀ (env : Env) (k : DataKind) (t : String) (c : Cache) (uc1 : Bool),
    (∀ p ∈ kindPaths k t, c p = none) →
    (∀ p ∈ kindPaths k t, env.writeOk p = true) →
    ProviderNonEmpty env k t →
    ∃ r c1, fetch env c k t uc1 = .ok (r, c1, kindQueries k t) ∧
      r = freshResult env k t ∧
      fetch env c1 k t true = .ok (roundTripK k r, c1, []) := by
  intro env k t c uc1 hmiss hw hne
  cases k
  case priceSeries =>
    have h0 : c (pricePath t) = none := hmiss _ (by simp [kindPaths])
    have w0 : env.writeOk (pricePath t) = true := hw _ (by simp [kindPaths])
    have e0 : (env.provider.download t "2023-01-01" none).empty? = false := hne
    refine ⟨freshResult env .priceSeries t,
      Cache.write c (pricePath t)
        (encodeIndexed (env.provider.download t "2023-01-01" none)), ?_, rfl, ?_⟩
    · cases uc1 <;>
        simp [fetch, get_stock_data, h0, e0, writeCache, w0, kindQueries, freshResult]
    · simp [fetch, get_stock_data, Cache.write_self, roundTripK, freshResult]
  case annualStatements =>
    have h1 : c (subPath t "income_stmt") = none := hmiss _ (by simp [kindPaths, annual_types])
    have h2 : c (subPath t "balance_sheet") = none := hmiss _ (by simp [kindPaths, annual_types])
    have h3 : c (subPath t "cashflow") = none := hmiss _ (by simp [kindPaths, annual_types])
    have w1 : env.writeOk (subPath t "income_stmt") = true := hw _ (by simp [kindPaths, annual_types])
    have w2 : env.writeOk (subPath t "balance_sheet") = true := hw _ (by simp [kindPaths, annual_types])
    have w3 : env.writeOk (subPath t "cashflow") = true := hw _ (by simp [kindPaths, annual_types])
    have e1 : (env.provider.attr t "financials").empty? = false :=
      hne ("income_stmt", "financials") (by simp [annual_types])
    have e2 : (env.provider.attr t "balance_sheet").empty? = false :=
      hne ("balance_sheet", "balance_sheet") (by simp [annual_types])
    have e3 : (env.provider.attr t "cashflow").empty? = false :=
      hne ("cashflow", "cashflow") (by simp [annual_types])
    have n12 : subPath t "income_stmt" ≠ subPath t "balance_sheet" := keyPath_ne t (by decide)
    have n13 : subPath t "income_stmt" ≠ subPath t "cashflow" := keyPath_ne t (by decide)
    have n23 : subPath t "balance_sheet" ≠ subPath t "cashflow" := keyPath_ne t (by decide)
    refine ⟨freshResult env .annualStatements t,
      Cache.write (Cache.write (Cache.write c
        (subPath t "income_stmt") (encodeIndexed (env.provider.attr t "financials")))
        (subPath t "balance_sheet") (encodeIndexed (env.provider.attr t "balance_sheet")))
        (subPath t "cashflow") (encodeIndexed (env.provider.attr t "cashflow")),
      ?_, rfl, ?_⟩
    · cases uc1 <;>
        simp [fetch, get_company_financials, stmtLoop, annual_types, h1, h2, h3,
          e1, e2, e3, writeCache, w1, w2, w3, Cache.write, n12, n13, n23,
          Ne.symm n12, Ne.symm n13, Ne.symm n23, kindQueries, freshResult]
    · simp [fetch, get_company_financials, stmtLoop, annual_types, Cache.write,
        n12, n13, n23, Ne.symm n12, Ne.symm n13, Ne.symm n23, roundTripK, freshResult]
  case quarterlyStatements =>
    have h1 : c (quarterlyPath t "income_stmt") = none :=
      hmiss _ (by simp [kindPaths, quarterly_types])
    have h2 : c (quarterlyPath t "balance_sheet") = none :=
      hmiss _ (by simp [kindPaths, quarterly_types])
    have h3 : c (quarterlyPath t "cashflow") = none :=
      hmiss _ (by simp [kindPaths, quarterly_types])
    have w1 : env.writeOk (quarterlyPath t "income_stmt") = true :=
      hw _ (by simp [kindPaths, quarterly_types])
    have w2 : env.writeOk (quarterlyPath t "balance_sheet") = true :=
      hw _ (by simp [kindPaths, quarterly_types])
    have w3 : env.writeOk (quarterlyPath t "cashflow") = true :=
      hw _ (by simp [kindPaths, quarterly_types])
    have e1 : (env.provider.attr t "quarterly_financials").empty? = false :=
      hne ("income_stmt", "quarterly_financials") (by simp [quarterly_types])
    have e2 : (env.provider.attr t "quarterly_balance_sheet").empty? = false :=
      hne ("balance_sheet", "quarterly_balance_sheet") (by simp [quarterly_types])
    have e3 : (env.provider.attr t "quarterly_cashflow").empty? = false :=
      hne ("cashflow", "quarterly_cashflow") (by simp [quarterly_types])
    have n12 : quarterlyPath t "income_stmt" ≠ quarterlyPath t "balance_sheet" :=
      keyPath_ne t (by decide)
    have n13 : quarterlyPath t "income_stmt" ≠ quarterlyPath t "cashflow" :=
      keyPath_ne t (by decide)
    have n23 : quarterlyPath t "balance_sheet" ≠ quarterlyPath t "cashflow" :=
      keyPath_ne t (by decide)
    refine ⟨freshResult env .quarterlyStatements t,
      Cache.write (Cache.write (Cache.write c
        (quarterlyPath t "income_stmt")
          (encodeIndexed (env.provider.attr t "quarterly_financials")))
        (quarterlyPath t "balance_sheet")
          (encodeIndexed (env.provider.attr t "quarterly_balance_sheet")))
        (quarterlyPath t "cashflow")
          (encodeIndexed (env.provider.attr t "quarterly_cashflow")),
      ?_, rfl, ?_⟩
    · cases uc1 <;>
        simp [fetch, get_quarterly_financials, stmtLoop, quarterly_types, h1, h2, h3,
          e1, e2, e3, writeCache, w1, w2, w3, Cache.write, n12, n13, n23,
          Ne.symm n12, Ne.symm n13, Ne.symm n23, kindQueries, freshResult]
    · simp [fetch, get_quarterly_financials, stmtLoop, quarterly_types, Cache.write,
        n12, n13, n23, Ne.symm n12, Ne.symm n13, Ne.symm n23, roundTripK, freshResult]
  case companyInfo =>
    have h0 : c (infoPath t) = none := hmiss _ (by simp [kindPaths])
    have w0 : env.writeOk (infoPath t) = true := hw _ (by simp [kindPaths])
    have e0 : (env.provider.info t).isEmpty = false := hne
    refine ⟨freshResult env .companyInfo t,
      Cache.write c (infoPath t) (.doc (env.provider.info t)), ?_, rfl, ?_⟩
    · cases uc1 <;>
        simp [fetch, get_company_info, h0, e0, writeCache, w0, kindQueries, freshResult]
    · simp [fetch, get_company_info, Cache.write_self, roundTripK, freshResult, readDoc]
  case holdersRecs =>
    have h1 : c (subPath t "institutional_holders") = none :=
      hmiss _ (by simp [kindPaths, holder_types])
    have h2 : c (subPath t "major_holders") = none := hmiss _ (by simp [kindPaths, holder_types])
    have h3 : c (subPath t "recommendations") = none := hmiss _ (by simp [kindPaths, holder_types])
    have w1 : env.writeOk (subPath t "institutional_holders") = true :=
      hw _ (by simp [kindPaths, holder_types])
    have w2 : env.writeOk (subPath t "major_holders") = true :=
      hw _ (by simp [kindPaths, holder_types])
    have w3 : env.writeOk (subPath t "recommendations") = true :=
      hw _ (by simp [kindPaths, holder_types])
    obtain ⟨df1, hd1, he1⟩ := hne ("institutional_holders", "institutional_holders")
      (by simp [holder_types])
    obtain ⟨df2, hd2, he2⟩ := hne ("major_holders", "major_holders") (by simp [holder_types])
    obtain ⟨df3, hd3, he3⟩ := hne ("recommendations", "recommendations")
      (by simp [holder_types])
    have n12 : subPath t "institutional_holders" ≠ subPath t "major_holders" :=
      keyPath_ne t (by decide)
    have n13 : subPath t "institutional_holders" ≠ subPath t "recommendations" :=
      keyPath_ne t (by decide)
    have n23 : subPath t "major_holders" ≠ subPath t "recommendations" :=
      keyPath_ne t (by decide)
    refine ⟨freshResult env .holdersRecs t,
      Cache.write (Cache.write (Cache.write c
        (subPath t "institutional_holders") (encodeFlat df1))
        (subPath t "major_holders") (encodeFlat df2))
        (subPath t "recommendations") (encodeFlat df3),
      ?_, rfl, ?_⟩
    · cases uc1 <;>
        simp [fetch, get_holders_and_recommendations, holdLoop, holder_types, h1, h2, h3,
          hd1, hd2, hd3, he1, he2, he3, writeCache, w1, w2, w3, Cache.write, n12, n13, n23,
          Ne.symm n12, Ne.symm n13, Ne.symm n23, kindQueries, freshResult]
    · simp [fetch, get_holders_and_recommendations, holdLoop, holder_types, Cache.write,
        hd1, hd2, hd3, he1, he2, he3, n12, n13, n23,
        Ne.symm n12, Ne.symm n13, Ne.symm n23, roundTripK, freshResult]

/-- **C1.** For every identifier and every data kind, starting from a cache
with no entry for the kind's keys: a first call whose provider responses
are all non-empty succeeds (issuing exactly the kind's remote queries and
returning the fresh provider data), and a second call with `use_cache=true`
immediately after issues zero remote calls and returns the first call's
result round-tripped through the kind's serialization adapter (encode on
the write, decode on the cached read). -/
theorem claim1_cache_roundtrip :
    ∀ (env : Env) (k : DataKind) (t : String) (c : Cache) (uc1 : Bool),
    (∀ p ∈ kindPaths k t, c p = none) →
    (∀ p ∈ kindPaths k t, env.writeOk p = true) →
    ProviderNonEmpty env k t →
    ∃ r c1, fetch env c k t uc1 = .ok (r, c1, kindQueries k t) ∧
      r = freshResult env k t ∧
      fetch env c1 k t true = .ok (roundTripK k r, c1, []) :=
  fetch_roundtrip_aux

/-! ### Claim C2: empty results are never persisted -/

/-- **C2.** For every fetch operation and every identifier, an empty
provider response creates no cache entry: with no entry for the kind's
keys, the call returns the (empty) fresh result together with the cache
`c` itself, unchanged, so a subsequent call for the same key runs the very
same computation and again issues the kind's remote queries, which form a
non-empty list — the remote fetch is attempted again. -/
theorem claim2_empty_never_persisted :
    ∀ (env : Env) (k : DataKind) (t : String) (c : Cache),
    (∀ p ∈ kindPaths k t, c p = none) →
    ProviderEmpty env k t →
    fetch env c k t true = .ok (freshResult env k t, c, kindQueries k t) ∧
    kindQueries k t ≠ [] := by
  intro env k t c hmiss hemp
  cases k
  case priceSeries =>
    have h0 : c (pricePath t) = none := hmiss _ (by simp [kindPaths])
    have e0 : (env.provider.download t "2023-01-01" none).empty? = true := hemp
    exact ⟨by simp [fetch, get_stock_data, h0, e0, kindQueries, freshResult],
      by simp [kindQueries]⟩
  case annualStatements =>
    have h1 : c (subPath t "income_stmt") = none := hmiss _ (by simp [kindPaths, annual_types])
    have h2 : c (subPath t "balance_sheet") = none := hmiss _ (by simp [kindPaths, annual_types])
    have h3 : c (subPath t "cashflow") = none := hmiss _ (by simp [kindPaths, annual_types])
    have e1 : (env.provider.attr t "financials").empty? = true :=
      hemp ("income_stmt", "financials") (by simp [annual_types])
    have e2 : (env.provider.attr t "balance_sheet").empty? = true :=
      hemp ("balance_sheet", "balance_sheet") (by simp [annual_types])
    have e3 : (env.provider.attr t "cashflow").empty? = true :=
      hemp ("cashflow", "cashflow") (by simp [annual_types])
    exact ⟨by simp [fetch, get_company_financials, stmtLoop, annual_types, h1, h2, h3,
      e1, e2, e3, kindQueries, freshResult], by simp [kindQueries, annual_types]⟩
  case quarterlyStatements =>
    have h1 : c (quarterlyPath t "income_stmt") = none :=
      hmiss _ (by simp [kindPaths, quarterly_types])
    have h2 : c (quarterlyPath t "balance_sheet") = none :=
      hmiss _ (by simp [kindPaths, quarterly_types])
    have h3 : c (quarterlyPath t "cashflow") = none :=
      hmiss _ (by simp [kindPaths, quarterly_types])
    have e1 : (env.provider.attr t "quarterly_financials").empty? = true :=
      hemp ("income_stmt", "quarterly_financials") (by simp [quarterly_types])
    have e2 : (env.provider.attr t "quarterly_balance_sheet").empty? = true :=
      hemp ("balance_sheet", "quarterly_balance_sheet") (by simp [quarterly_types])
    have e3 : (env.provider.attr t "quarterly_cashflow").empty? = true :=
      hemp ("cashflow", "quarterly_cashflow") (by simp [quarterly_types])
    exact ⟨by simp [fetch, get_quarterly_financials, stmtLoop, quarterly_types, h1, h2, h3,
      e1, e2, e3, kindQueries, freshResult], by simp [kindQueries, quarterly_types]⟩
  case companyInfo =>
    have h0 : c (infoPath t) = none := hmiss _ (by simp [kindPaths])
    have e0 : (env.provider.info t).isEmpty = true := hemp
    exact ⟨by simp [fetch, get_company_info, h0, e0, kindQueries, freshResult],
      by simp [kindQueries]⟩
  case holdersRecs =>
    have h1 : c (subPath t "institutional_holders") = none :=
      hmiss _ (by simp [kindPaths, holder_types])
    have h2 : c (subPath t "major_holders") = none := hmiss _ (by simp [kindPaths, holder_types])
    have h3 : c (subPath t "recommendations") = none := hmiss _ (by simp [kindPaths, holder_types])
    have d1 := hemp ("institutional_holders", "institutional_holders") (by simp [holder_types])
    have d2 := hemp ("major_holders", "major_holders") (by simp [holder_types])
    have d3 := hemp ("recommendations", "recommendations") (by simp [holder_types])
    refine ⟨?_, by simp [kindQueries, holder_types]⟩
    rcases d1 with hd1 | ⟨df1, hd1, he1⟩ <;> rcases d2 with hd2 | ⟨df2, hd2, he2⟩ <;>
      rcases d3 with hd3 | ⟨df3, hd3, he3⟩ <;>
      simp_all [fetch, get_holders_and_recommendations, holdLoop, holder_types,
        kindQueries, freshResult]

/-! ### Claim C3: write-once — corrected

As stated ("no later invocation of any fetch operation mutates or deletes
that entry") the claim is false: a call with `use_cache=False` skips the
cache-hit check and, on a non-empty download, runs `df.to_csv(cache_file)`
over the existing file (data.py lines 31-41).  The counterexample below
exhibits the overwrite.  The amended claim restricts the invariant to
invocations with `use_cache=True`, which never write to a key that already
has an entry. -/

/-- Projection used to observe the final cache of a fetch at one path. -/
def cacheOfR (r : Except Unit (FetchResult × Cache × List Query)) (p : String) :
    Option Artifact :=
  match r with
  | .ok out => out.2.1 p
  | .error _ => none

def tblA : Table := ⟨[Label.str "r"], [Label.str "c"], [["1"]]⟩

def tblB : Table := ⟨[Label.str "r"], [Label.str "c"], [["2"]]⟩

/-- A provider whose every response is `tblB`-shaped and non-empty, with
all filesystem writes succeeding. -/
def envB : Env :=
  ⟨⟨fun _ _ _ => tblB, fun _ _ => tblB, fun _ _ => some tblB, fun _ => [("k", "v")]⟩,
   fun _ => true⟩

/-- A cache already holding the price-series entry for `"AAPL"` written
from `tblA`. -/
def cA : Cache := Cache.write (fun _ => none) (pricePath "AAPL") (encodeIndexed tblA)

/-- **C3, counterexample.** The cache holds an entry for the price-series
key of `"AAPL"`; a later invocation of the price-series fetch with
`use_cache=false` leaves a *different* artifact at that key — the entry
was mutated, contradicting the claim as stated (which quantifies over
every later invocation, not only `use_cache=true` ones). -/
theorem claim3_counterexample :
    cA (pricePath "AAPL") = some (encodeIndexed tblA) ∧
    cacheOfR (fetch envB cA .priceSeries "AAPL" false) (pricePath "AAPL") =
      some (encodeIndexed tblB) ∧
    encodeIndexed tblB ≠ encodeIndexed tblA := by
  refine ⟨by decide, by decide, by decide⟩

theorem stmtLoop_preserves (env : Env) (t : String) (pf : String → String) :
    ∀ (l : List (String × String)) (fin : List (String × Table)) (c : Cache)
      (log : List Query) (out : List (String × Table) × Cache × List Query),
    stmtLoop env t pf true l (fin, c, log) = .ok out →
    ∀ p a, c p = some a → out.2.1 p = some a := by
  intro l
  induction l with
  | nil =>
    intro fin c log out h p a hc
    simp only [stmtLoop, Except.ok.injEq] at h
    rw [← h]
    exact hc
  | cons nt rest ih =>
    obtain ⟨name, yfAttr⟩ := nt
    intro fin c log out h p a hc
    cases hcp : c (pf name) with
    | some b =>
      simp only [stmtLoop, hcp] at h
      exact ih _ _ _ _ h p a hc
    | none =>
      simp only [stmtLoop, hcp] at h
      cases hE : (env.provider.attr t yfAttr).empty? with
      | true =>
        rw [if_pos hE] at h
        exact ih _ _ _ _ h p a hc
      | false =>
        rw [if_neg (by simp [hE])] at h
        cases hW : env.writeOk (pf name) with
        | false => rw [writeCache, if_neg (by simp [hW])] at h; cases h
        | true =>
          rw [writeCache, if_pos hW] at h
          have hpn : p ≠ pf name := by
            intro hh
            rw [hh, hcp] at hc
            cases hc
          refine ih _ _ _ _ h p a ?_
          rw [Cache.write_ne _ _ hpn]
          exact hc

theorem holdLoop_preserves (env : Env) (t : String) :
    ∀ (l : List (String × String)) (fin : List (String × Table)) (c : Cache)
      (log : List Query) (out : List (String × Table) × Cache × List Query),
    holdLoop env t true l (fin, c, log) = .ok out →
    ∀ p a, c p = some a → out.2.1 p = some a := by
  intro l
  induction l with
  | nil =>
    intro fin c log out h p a hc
    simp only [holdLoop, Except.ok.injEq] at h
    rw [← h]
    exact hc
  | cons nt rest ih =>
    obtain ⟨name, yfAttr⟩ := nt
    intro fin c log out h p a hc
    cases hcp : c (subPath t name) with
    | some b =>
      simp only [holdLoop, hcp] at h
      exact ih _ _ _ _ h p a hc
    | none =>
      simp only [holdLoop, hcp] at h
      cases hdf : env.provider.attrOpt t yfAttr with
      | none =>
        simp only [hdf] at h
        exact ih _ _ _ _ h p a hc
      | some df =>
        simp only [hdf] at h
        cases hE : df.empty? with
        | true =>
          rw [if_pos hE] at h
          exact ih _ _ _ _ h p a hc
        | false =>
          rw [if_neg (by simp [hE])] at h
          cases hW : env.writeOk (subPath t name) with
          | false => rw [writeCache, if_neg (by simp [hW])] at h; cases h
          | true =>
            rw [writeCache, if_pos hW] at h
            have hpn : p ≠ subPath t name := by
              intro hh
              rw [hh, hcp] at hc
              cases hc
            refine ih _ _ _ _ h p a ?_
            rw [Cache.write_ne _ _ hpn]
            exact hc

/-- **C3, amended.** Once a cache entry exists for a key, no later
invocation of any fetch operation *with `use_cache=true`* mutates or
deletes it: whatever such a call returns, the final cache still maps that
key to the same artifact (writes happen only at keys that were misses).
A `use_cache=false` invocation, by contrast, can overwrite the entry, as
the counterexample shows. -/
theorem claim3_amended_write_once :
    ∀ (env : Env) (k : DataKind) (t : String) (c : Cache)
      (out : FetchResult × Cache × List Query) (p : String) (a : Artifact),
    fetch env c k t true = .ok out → c p = some a → out.2.1 p = some a := by
  intro env k t c out p a h hc
  cases k
  case priceSeries =>
    rw [fetch] at h
    cases hcp : c (pricePath t) with
    | some b =>
      simp only [get_stock_data, hcp, Except.ok.injEq] at h
      rw [← h]
      exact hc
    | none =>
      simp only [get_stock_data, hcp] at h
      cases hE : (env.provider.download t "2023-01-01" none).empty? with
      | true =>
        rw [if_pos hE] at h
        simp only [Except.ok.injEq] at h
        rw [← h]
        exact hc
      | false =>
        rw [if_neg (by simp [hE])] at h
        cases hW : env.writeOk (pricePath t) with
        | false => rw [writeCache, if_neg (by simp [hW])] at h; cases h
        | true =>
          rw [writeCache, if_pos hW] at h
          simp only [Except.ok.injEq] at h
          rw [← h]
          have hpn : p ≠ pricePath t := by
            intro hh
            rw [hh, hcp] at hc
            cases hc
          simp only [Cache.write_ne _ _ hpn]
          exact hc
  case annualStatements =>
    rw [fetch] at h
    cases hg : get_company_financials env c t true with
    | error e => rw [hg] at h; cases h
    | ok out2 =>
      rw [hg] at h
      obtain ⟨m2, c2, lg2⟩ := out2
      simp only [Except.ok.injEq] at h
      rw [← h]
      exact stmtLoop_preserves env t (subPath t) annual_types [] c [] _ hg p a hc
  case quarterlyStatements =>
    rw [fetch] at h
    cases hg : get_quarterly_financials env c t true with
    | error e => rw [hg] at h; cases h
    | ok out2 =>
      rw [hg] at h
      obtain ⟨m2, c2, lg2⟩ := out2
      simp only [Except.ok.injEq] at h
      rw [← h]
      exact stmtLoop_preserves env t (quarterlyPath t) quarterly_types [] c [] _ hg p a hc
  case companyInfo =>
    rw [fetch] at h
    cases hcp : c (infoPath t) with
    | some b =>
      simp only [get_company_info, hcp, Except.ok.injEq] at h
      rw [← h]
      exact hc
    | none =>
      simp only [get_company_info, hcp] at h
      cases hE : (env.provider.info t).isEmpty with
      | true =>
        rw [if_pos hE] at h
        simp only [Except.ok.injEq] at h
        rw [← h]
        exact hc
      | false =>
        rw [if_neg (by simp [hE])] at h
        cases hW : env.writeOk (infoPath t) with
        | false => rw [writeCache, if_neg (by simp [hW])] at h; cases h
        | true =>
          rw [writeCache, if_pos hW] at h
          simp only [Except.ok.injEq] at h
          rw [← h]
          have hpn : p ≠ infoPath t := by
            intro hh
            rw [hh, hcp] at hc
            cases hc
          simp only [Cache.write_ne _ _ hpn]
          exact hc
  case holdersRecs =>
    rw [fetch] at h
    cases hg : get_holders_and_recommendations env c t true with
    | error e => rw [hg] at h; cases h
    | ok out2 =>
      rw [hg] at h
      obtain ⟨m2, c2, lg2⟩ := out2
      simp only [Except.ok.injEq] at h
      rw [← h]
      exact holdLoop_preserves env t holder_types [] c [] _ hg p a hc

/-! ### Claim C4: the key-to-path mapping — corrected

The mapping is deterministic (`CacheKey.path` is a function), but it is
*not* collision-free over all identifier strings: the price-series path of
the identifier `"A_income_stmt"` coincides with the annual `income_stmt`
path of the identifier `"A"`.  The amendment restricts collision-freedom
to identifiers that do not contain an underscore (every suffix other than
the price-series `".csv"` begins with `'_'`, so the first underscore then
separates the identifier from the sub-kind suffix). -/

/-- One of the eleven (data-kind, sub-kind) combinations that own a cache
file. -/
inductive KindTag where
  | price
  | annualIncome
  | annualBalance
  | annualCashflow
  | qIncome
  | qBalance
  | qCashflow
  | infoT
  | hInst
  | hMajor
  | hRecs
deriving DecidableEq

/-- The filename suffix each combination appends to the identifier, written
with the same string compositions the operations use. -/
def KindTag.suffix : KindTag → String
  | .price => ".csv"
  | .annualIncome => "_" ++ "income_stmt" ++ ".csv"
  | .annualBalance => "_" ++ "balance_sheet" ++ ".csv"
  | .annualCashflow => "_" ++ "cashflow" ++ ".csv"
  | .qIncome => "_quarterly_" ++ "income_stmt" ++ ".csv"
  | .qBalance => "_quarterly_" ++ "balance_sheet" ++ ".csv"
  | .qCashflow => "_quarterly_" ++ "cashflow" ++ ".csv"
  | .infoT => "_info.json"
  | .hInst => "_" ++ "institutional_holders" ++ ".csv"
  | .hMajor => "_" ++ "major_holders" ++ ".csv"
  | .hRecs => "_" ++ "recommendations" ++ ".csv"

/-- A cache key: identifier plus (data-kind, sub-kind) combination. -/
structure CacheKey where
  ticker : String
  tag : KindTag
deriving DecidableEq

/-- The filesystem path of a cache key, under the fixed root. -/
def CacheKey.path (k : CacheKey) : String := keyPath k.ticker k.tag.suffix

theorem CacheKey.path_price (t : String) : CacheKey.path ⟨t, .price⟩ = pricePath t := rfl

theorem CacheKey.path_annual_income (t : String) :
    CacheKey.path ⟨t, .annualIncome⟩ = subPath t "income_stmt" := rfl

theorem CacheKey.path_annual_balance (t : String) :
    CacheKey.path ⟨t, .annualBalance⟩ = subPath t "balance_sheet" := rfl

theorem CacheKey.path_annual_cashflow (t : String) :
    CacheKey.path ⟨t, .annualCashflow⟩ = subPath t "cashflow" := rfl

theorem CacheKey.path_q_income (t : String) :
    CacheKey.path ⟨t, .qIncome⟩ = quarterlyPath t "income_stmt" := rfl

theorem CacheKey.path_q_balance (t : String) :
    CacheKey.path ⟨t, .qBalance⟩ = quarterlyPath t "balance_sheet" := rfl

theorem CacheKey.path_q_cashflow (t : String) :
    CacheKey.path ⟨t, .qCashflow⟩ = quarterlyPath t "cashflow" := rfl

theorem CacheKey.path_info (t : String) : CacheKey.path ⟨t, .infoT⟩ = infoPath t := rfl

theorem CacheKey.path_h_inst (t : String) :
    CacheKey.path ⟨t, .hInst⟩ = subPath t "institutional_holders" := rfl

theorem CacheKey.path_h_major (t : String) :
    CacheKey.path ⟨t, .hMajor⟩ = subPath t "major_holders" := rfl

theorem CacheKey.path_h_recs (t : String) :
    CacheKey.path ⟨t, .hRecs⟩ = subPath t "recommendations" := rfl

/-- **C4, counterexample.** Two distinct (identifier, data-kind, sub-kind)
keys with the same computed path: the claim's universal collision-freedom
over all identifier strings fails. -/
theorem claim4_counterexample :
    CacheKey.path ⟨"A_income_stmt", .price⟩ = CacheKey.path ⟨"A", .annualIncome⟩ ∧
    (⟨"A_income_stmt", .price⟩ : CacheKey) ≠ ⟨"A", .annualIncome⟩ := by
  exact ⟨by decide, by decide⟩

/-- The suffix tail after the leading underscore, `none` for the
price-series suffix (the only suffix with no underscore). -/
def KindTag.tagRest : KindTag → Option (List Char)
  | .price => none
  | .annualIncome => some ("income_stmt.csv").data
  | .annualBalance => some ("balance_sheet.csv").data
  | .annualCashflow => some ("cashflow.csv").data
  | .qIncome => some ("quarterly_income_stmt.csv").data
  | .qBalance => some ("quarterly_balance_sheet.csv").data
  | .qCashflow => some ("quarterly_cashflow.csv").data
  | .infoT => some ("info.json").data
  | .hInst => some ("institutional_holders.csv").data
  | .hMajor => some ("major_holders.csv").data
  | .hRecs => some ("recommendations.csv").data

theorem KindTag.suffix_shape (k : KindTag) :
    (k.tagRest = none ∧ k.suffix = ".csv") ∨
    (∃ r, k.tagRest = some r ∧ k.suffix.data = '_' :: r) := by
  cases k
  case price => exact Or.inl ⟨rfl, rfl⟩
  all_goals exact Or.inr ⟨_, rfl, by decide⟩

theorem KindTag.tagRest_none (k : KindTag) (h : k.tagRest = none) : k = .price := by
  cases k <;> first | rfl | exact absurd h (by decide)

theorem KindTag.tagRest_inj (a b : KindTag) (h : a.tagRest = b.tagRest) : a = b := by
  cases a <;> cases b <;> first | rfl | exact absurd h (by decide)

/-- Splitting at the first occurrence of a delimiter: if neither prefix
contains it, equal concatenations force equal parts. -/
theorem append_cons_inj {t1 t2 r1 r2 : List Char}
    (h1 : '_' ∉ t1) (h2 : '_' ∉ t2)
    (he : t1 ++ '_' :: r1 = t2 ++ '_' :: r2) : t1 = t2 ∧ r1 = r2 := by
  induction t1 generalizing t2 with
  | nil =>
    cases t2 with
    | nil => simpa using he
    | cons c t2' =>
      simp only [List.nil_append, List.cons_append, List.cons.injEq] at he
      exact absurd (he.1 ▸ List.mem_cons_self _ _) h2
  | cons c t1' ih =>
    cases t2 with
    | nil =>
      simp only [List.cons_append, List.nil_append, List.cons.injEq] at he
      exact absurd (he.1.symm ▸ List.mem_cons_self _ _) h1
    | cons c2 t2' =>
      simp only [List.cons_append, List.cons.injEq] at he
      have h1' : '_' ∉ t1' := fun hm => h1 (List.mem_cons_of_mem _ hm)
      have h2' : '_' ∉ t2' := fun hm => h2 (List.mem_cons_of_mem _ hm)
      obtain ⟨e1, e2⟩ := ih h1' h2' he.2
      exact ⟨by rw [he.1, e1], e2⟩

/-- **C4, amended.** The key-to-path mapping is deterministic (it is a
function of the key), and it is collision-free for all identifiers that do
not contain an underscore: two distinct (identifier, data-kind, sub-kind)
keys whose identifiers are underscore-free always map to distinct
filesystem paths.  (With underscores allowed, collisions exist — see the
counterexample.) -/
theorem claim4_amended_path_injective :
    ∀ k1 k2 : CacheKey, '_' ∉ k1.ticker.data → '_' ∉ k2.ticker.data →
    k1 ≠ k2 → CacheKey.path k1 ≠ CacheKey.path k2 := by
  intro k1 k2 h1 h2 hne he
  apply hne
  obtain ⟨t1, g1⟩ := k1
  obtain ⟨t2, g2⟩ := k2
  have hd : t1.data ++ g1.suffix.data = t2.data ++ g2.suffix.data := by
    have hdd := congrArg String.data he
    simp only [CacheKey.path, keyPath, String.data_append] at hdd
    exact List.append_cancel_left hdd
  rcases KindTag.suffix_shape g1 with ⟨e1, s1⟩ | ⟨r1, e1, s1⟩ <;>
    rcases KindTag.suffix_shape g2 with ⟨e2, s2⟩ | ⟨r2, e2, s2⟩
  · rw [s1, s2] at hd
    have ht : t1 = t2 := String.ext (List.append_cancel_right hd)
    have hg : g1 = g2 := by
      rw [KindTag.tagRest_none g1 e1, KindTag.tagRest_none g2 e2]
    rw [ht, hg]
  · rw [s1, s2] at hd
    have hmem : '_' ∈ t1.data ++ (".csv" : String).data := by
      rw [hd]
      exact List.mem_append_right _ (List.mem_cons_self _ _)
    rcases List.mem_append.mp hmem with hm | hm
    · exact absurd hm h1
    · exact absurd hm (by decide)
  · rw [s1, s2] at hd
    have hmem : '_' ∈ t2.data ++ (".csv" : String).data := by
      rw [← hd]
      exact List.mem_append_right _ (List.mem_cons_self _ _)
    rcases List.mem_append.mp hmem with hm | hm
    · exact absurd hm h2
    · exact absurd hm (by decide)
  · rw [s1, s2] at hd
    obtain ⟨ht, hr⟩ := append_cons_inj h1 h2 hd
    have hg : g1 = g2 := KindTag.tagRest_inj g1 g2 (by rw [e1, e2, hr])
    have ht' : t1 = t2 := String.ext ht
    rw [ht', hg]

/-! ### Claim C6: encode/decode round-trip law -/

theorem parseAllDates_render_labels (ls : List Label)
    (h : ∀ l ∈ ls, ∃ dt, l = Label.date dt ∧ dt.Valid) :
    ∃ ds, parseAllDates (ls.map Label.render) = some ds ∧ ds.map Label.date = ls := by
  induction ls with
  | nil => exact ⟨[], rfl, rfl⟩
  | cons l rest ih =>
    obtain ⟨dt, rfl, hv⟩ := h l (List.mem_cons_self _ _)
    obtain ⟨ds, hp, hm⟩ := ih (fun x hx => h x (List.mem_cons_of_mem _ hx))
    refine ⟨dt :: ds, ?_, by simp [hm]⟩
    simp only [List.map_cons, parseAllDates, Label.render]
    rw [Date.parse_render hv, hp]

/-- Decoding after encoding recovers date-typed labels exactly. -/
theorem reparseLabels_dates (ls : List Label)
    (h : ∀ l ∈ ls, ∃ dt, l = Label.date dt ∧ dt.Valid) :
    reparseLabels (ls.map Label.render) = ls := by
  obtain ⟨ds, hp, hm⟩ := parseAllDates_render_labels ls h
  simp only [reparseLabels, hp]
  exact hm

theorem map_render_str (ls : List Label) (h : ∀ l ∈ ls, ∃ s, l = Label.str s) :
    (ls.map Label.render).map Label.str = ls := by
  induction ls with
  | nil => rfl
  | cons l rest ih =>
    obtain ⟨s, rfl⟩ := h l (List.mem_cons_self _ _)
    simp only [List.map_cons, Label.render]
    rw [ih (fun x hx => h x (List.mem_cons_of_mem _ hx))]

/-- Decoding after encoding keeps string labels unchanged when the
re-parse attempt fails. -/
theorem reparseLabels_strs (ls : List Label) (h : ∀ l ∈ ls, ∃ s, l = Label.str s)
    (hfail : parseAllDates (ls.map Label.render) = none) :
    reparseLabels (ls.map Label.render) = ls := by
  simp only [reparseLabels, hfail]
  exact map_render_str ls h

theorem zip_map_headD (ix : List Label) (rs : List (List String))
    (h : ix.length = rs.length) :
    (List.zipWith (fun i r => Label.render i :: r) ix rs).map (fun r => r.headD "") =
      ix.map Label.render := by
  induction ix generalizing rs with
  | nil => simp
  | cons i ix ih =>
    cases rs with
    | nil => simp at h
    | cons r rs =>
      simp only [List.zipWith_cons_cons, List.map_cons, List.headD_cons]
      rw [ih rs (by simpa using h)]

theorem zip_map_headD_str (ix : List Label) (rs : List (List String))
    (h : ix.length = rs.length) :
    (List.zipWith (fun i r => Label.render i :: r) ix rs).map
        (fun r => Label.str (r.headD "")) =
      (ix.map Label.render).map Label.str := by
  induction ix generalizing rs with
  | nil => simp
  | cons i ix ih =>
    cases rs with
    | nil => simp at h
    | cons r rs =>
      simp only [List.zipWith_cons_cons, List.map_cons, List.headD_cons]
      rw [ih rs (by simpa using h)]

theorem zip_map_tail (ix : List Label) (rs : List (List String))
    (h : ix.length = rs.length) :
    (List.zipWith (fun i r => Label.render i :: r) ix rs).map List.tail = rs := by
  induction ix generalizing rs with
  | nil => cases rs with
    | nil => rfl
    | cons r rs => simp at h
  | cons i ix ih =>
    cases rs with
    | nil => simp at h
    | cons r rs =>
      simp only [List.zipWith_cons_cons, List.map_cons, List.tail_cons]
      rw [ih rs (by simpa using h)]

/-- **C6.** Round-trip law for the serialization adapters on a non-empty,
well-formed (one index label per row) table.  Statement adapter
(`to_csv` / `read_csv(index_col=0)` + guarded `to_datetime`): values
(index and cells) are preserved, date-typed headers are recovered exactly,
and string headers that fail the date re-parse are kept unchanged.  Price
adapter (`to_csv` / `read_csv(index_col=0, parse_dates=True)`): string
column headers and cells are preserved and a valid date-typed index is
recovered exactly.  Flat adapter (`to_csv(index=False)` / `read_csv()`):
string headers and cells are preserved. -/
theorem claim6_roundtrip_law :
    ∀ t : Table, t.empty? = false → t.index.length = t.rows.length →
    ((∀ l ∈ t.index, ∃ s, l = Label.str s) →
      (readStmt (encodeIndexed t)).index = t.index ∧
      (readStmt (encodeIndexed t)).rows = t.rows ∧
      ((∀ l ∈ t.cols, ∃ dt, l = Label.date dt ∧ dt.Valid) →
        (readStmt (encodeIndexed t)).cols = t.cols) ∧
      ((∀ l ∈ t.cols, ∃ s, l = Label.str s) →
        parseAllDates (t.cols.map Label.render) = none →
        (readStmt (encodeIndexed t)).cols = t.cols)) ∧
    ((∀ l ∈ t.cols, ∃ s, l = Label.str s) →
      (readPrice (encodeIndexed t)).cols = t.cols ∧
      (readPrice (encodeIndexed t)).rows = t.rows ∧
      ((∀ l ∈ t.index, ∃ dt, l = Label.date dt ∧ dt.Valid) →
        (readPrice (encodeIndexed t)).index = t.index)) ∧
    ((∀ l ∈ t.cols, ∃ s, l = Label.str s) →
      (readFlat (encodeFlat t)).cols = t.cols ∧
      (readFlat (encodeFlat t)).rows = t.rows) := by
  intro t _hne hlen
  refine ⟨?_, ?_, ?_⟩
  · intro hidx
    refine ⟨?_, ?_, ?_, ?_⟩
    · simp only [readStmt, encodeIndexed]
      rw [zip_map_headD_str t.index t.rows hlen, map_render_str t.index hidx]
    · simp only [readStmt, encodeIndexed]
      exact zip_map_tail t.index t.rows hlen
    · intro hcols
      simp only [readStmt, encodeIndexed, List.tail_cons]
      exact reparseLabels_dates t.cols hcols
    · intro hcols hfail
      simp only [readStmt, encodeIndexed, List.tail_cons]
      exact reparseLabels_strs t.cols hcols hfail
  · intro hcols
    refine ⟨?_, ?_, ?_⟩
    · simp only [readPrice, encodeIndexed, List.tail_cons]
      exact map_render_str t.cols hcols
    · simp only [readPrice, encodeIndexed]
      exact zip_map_tail t.index t.rows hlen
    · intro hidx
      simp only [readPrice, encodeIndexed]
      rw [zip_map_headD t.index t.rows hlen]
      exact reparseLabels_dates t.index hidx
  · intro hcols
    refine ⟨?_, ?_⟩
    · simp only [readFlat, encodeFlat]
      exact map_render_str t.cols hcols
    · simp only [readFlat, encodeFlat]

/-! ### Claim C7: date-reparse failure on a cached statement artifact is
swallowed -/

/-- **C7.** For cached statement-bundle artifacts whose column headers fail
to parse as dates, the cache read still succeeds: at the adapter level the
decoded table keeps exactly the original string headers (and the stored
cells), and at the call level `get_company_financials` /
`get_quarterly_financials` with all three sub-kinds so cached return `.ok`
with those tables, the cache untouched and zero remote calls — the
`try/except: pass` swallows the failure and no error reaches the caller. -/
theorem claim7_bad_headers_swallowed :
    ∀ (x1 x2 x3 : String) (h1 h2 h3 : List String) (rs1 rs2 rs3 : List (List String)),
    parseAllDates h1 = none → parseAllDates h2 = none → parseAllDates h3 = none →
    ((readStmt (.grid (x1 :: h1) rs1)).cols = h1.map Label.str) ∧
    (∀ (env : Env) (t : String) (c : Cache),
      c (subPath t "income_stmt") = some (.grid (x1 :: h1) rs1) →
      c (subPath t "balance_sheet") = some (.grid (x2 :: h2) rs2) →
      c (subPath t "cashflow") = some (.grid (x3 :: h3) rs3) →
      get_company_financials env c t true = .ok
        ([("income_stmt", readStmt (.grid (x1 :: h1) rs1)),
          ("balance_sheet", readStmt (.grid (x2 :: h2) rs2)),
          ("cashflow", readStmt (.grid (x3 :: h3) rs3))], c, [])) ∧
    (∀ (env : Env) (t : String) (c : Cache),
      c (quarterlyPath t "income_stmt") = some (.grid (x1 :: h1) rs1) →
      c (quarterlyPath t "balance_sheet") = some (.grid (x2 :: h2) rs2) →
      c (quarterlyPath t "cashflow") = some (.grid (x3 :: h3) rs3) →
      get_quarterly_financials env c t true = .ok
        ([("income_stmt", readStmt (.grid (x1 :: h1) rs1)),
          ("balance_sheet", readStmt (.grid (x2 :: h2) rs2)),
          ("cashflow", readStmt (.grid (x3 :: h3) rs3))], c, [])) := by
  intro x1 x2 x3 h1 h2 h3 rs1 rs2 rs3 hf1 hf2 hf3
  refine ⟨?_, ?_, ?_⟩
  · simp only [readStmt, List.tail_cons, reparseLabels, hf1]
  · intro env t c hc1 hc2 hc3
    simp [get_company_financials, stmtLoop, annual_types, hc1, hc2, hc3]
  · intro env t c hc1 hc2 hc3
    simp [get_quarterly_financials, stmtLoop, quarterly_types, hc1, hc2, hc3]

/-! ### Per-sub-kind resolution of the bundle loops

When all writes succeed, one iteration of `stmtLoop` / `holdLoop` is the
following self-contained resolution of a single sub-kind against the cache
it is handed; the loop then threads the written cache on. -/

def stmtResolve (env : Env) (t : String) (pf : String → String) (c : Cache)
    (name yfAttr : String) : Table × Cache × List Query :=
  match c (pf name) with
  | some a => (readStmt a, c, [])
  | none =>
    if (env.provider.attr t yfAttr).empty? then
      (env.provider.attr t yfAttr, c, [Query.attr t yfAttr])
    else
      (env.provider.attr t yfAttr,
       Cache.write c (pf name) (encodeIndexed (env.provider.attr t yfAttr)),
       [Query.attr t yfAttr])

def holdResolve (env : Env) (t : String) (c : Cache) (name yfAttr : String) :
    Table × Cache × List Query :=
  match c (subPath t name) with
  | some a => (readFlat a, c, [])
  | none =>
    match env.provider.attrOpt t yfAttr with
    | some df =>
      if df.empty? then (Table.emptyT, c, [Query.attr t yfAttr])
      else (df, Cache.write c (subPath t name) (encodeFlat df), [Query.attr t yfAttr])
    | none => (Table.emptyT, c, [Query.attr t yfAttr])

theorem stmtLoop_cons_resolve (env : Env) (t : String) (pf : String → String)
    (name yfAttr : String) (rest : List (String × String))
    (fin : List (String × Table)) (c : Cache) (log : List Query)
    (hWp : env.writeOk (pf name) = true) :
    stmtLoop env t pf true ((name, yfAttr) :: rest) (fin, c, log) =
      stmtLoop env t pf true rest
        (fin ++ [(name, (stmtResolve env t pf c name yfAttr).1)],
         (stmtResolve env t pf c name yfAttr).2.1,
         log ++ (stmtResolve env t pf c name yfAttr).2.2) := by
  cases hcp : c (pf name) with
  | some a => simp [stmtLoop, stmtResolve, hcp]
  | none =>
    cases hE : (env.provider.attr t yfAttr).empty? with
    | true => simp [stmtLoop, stmtResolve, hcp, hE]
    | false => simp [stmtLoop, stmtResolve, hcp, hE, writeCache, hWp]

theorem holdLoop_cons_resolve (env : Env) (t : String)
    (name yfAttr : String) (rest : List (String × String))
    (fin : List (String × Table)) (c : Cache) (log : List Query)
    (hWp : env.writeOk (subPath t name) = true) :
    holdLoop env t true ((name, yfAttr) :: rest) (fin, c, log) =
      holdLoop env t true rest
        (fin ++ [(name, (holdResolve env t c name yfAttr).1)],
         (holdResolve env t c name yfAttr).2.1,
         log ++ (holdResolve env t c name yfAttr).2.2) := by
  cases hcp : c (subPath t name) with
  | some a => simp [holdLoop, holdResolve, hcp]
  | none =>
    cases hdf : env.provider.attrOpt t yfAttr with
    | none => simp [holdLoop, holdResolve, hcp, hdf]
    | some df =>
      cases hE : df.empty? with
      | true => simp [holdLoop, holdResolve, hcp, hdf, hE]
      | false => simp [holdLoop, holdResolve, hcp, hdf, hE, writeCache, hWp]

/-- `get_company_financials` with `use_cache=True` and succeeding writes is
the sequential composition of three independent sub-kind resolutions. -/
theorem get_company_financials_spec (env : Env) (c : Cache) (t : String)
    (hW : ∀ p, env.writeOk p = true) :
    get_company_financials env c t true =
      .ok ([("income_stmt", (stmtResolve env t (subPath t) c "income_stmt" "financials").1),
            ("balance_sheet",
             (stmtResolve env t (subPath t)
               (stmtResolve env t (subPath t) c "income_stmt" "financials").2.1
               "balance_sheet" "balance_sheet").1),
            ("cashflow",
             (stmtResolve env t (subPath t)
               (stmtResolve env t (subPath t)
                 (stmtResolve env t (subPath t) c "income_stmt" "financials").2.1
                 "balance_sheet" "balance_sheet").2.1
               "cashflow" "cashflow").1)],
           (stmtResolve env t (subPath t)
             (stmtResolve env t (subPath t)
               (stmtResolve env t (subPath t) c "income_stmt" "financials").2.1
               "balance_sheet" "balance_sheet").2.1
             "cashflow" "cashflow").2.1,
           (stmtResolve env t (subPath t) c "income_stmt" "financials").2.2 ++
           ((stmtResolve env t (subPath t)
               (stmtResolve env t (subPath t) c "income_stmt" "financials").2.1
               "balance_sheet" "balance_sheet").2.2 ++
            (stmtResolve env t (subPath t)
               (stmtResolve env t (subPath t)
                 (stmtResolve env t (subPath t) c "income_stmt" "financials").2.1
                 "balance_sheet" "balance_sheet").2.1
               "cashflow" "cashflow").2.2)) := by
  rw [get_company_financials]
  show stmtLoop env t (subPath t) true
      (("income_stmt", "financials") :: ("balance_sheet", "balance_sheet") ::
       ("cashflow", "cashflow") :: []) ([], c, []) = _
  rw [stmtLoop_cons_resolve env t (subPath t) _ _ _ _ _ _ (hW _),
      stmtLoop_cons_resolve env t (subPath t) _ _ _ _ _ _ (hW _),
      stmtLoop_cons_resolve env t (subPath t) _ _ _ _ _ _ (hW _)]
  simp [stmtLoop]

/-- `get_holders_and_recommendations` with `use_cache=True` and succeeding
writes is the sequential composition of three independent sub-kind
resolutions. -/
theorem get_holders_spec (env : Env) (c : Cache) (t : String)
    (hW : ∀ p, env.writeOk p = true) :
    get_holders_and_recommendations env c t true =
      .ok ([("institutional_holders",
             (holdResolve env t c "institutional_holders" "institutional_holders").1),
            ("major_holders",
             (holdResolve env t
               (holdResolve env t c "institutional_holders" "institutional_holders").2.1
               "major_holders" "major_holders").1),
            ("recommendations",
             (holdResolve env t
               (holdResolve env t
                 (holdResolve env t c "institutional_holders" "institutional_holders").2.1
                 "major_holders" "major_holders").2.1
               "recommendations" "recommendations").1)],
           (holdResolve env t
             (holdResolve env t
               (holdResolve env t c "institutional_holders" "institutional_holders").2.1
               "major_holders" "major_holders").2.1
             "recommendations" "recommendations").2.1,
           (holdResolve env t c "institutional_holders" "institutional_holders").2.2 ++
           ((holdResolve env t
               (holdResolve env t c "institutional_holders" "institutional_holders").2.1
               "major_holders" "major_holders").2.2 ++
            (holdResolve env t
               (holdResolve env t
                 (holdResolve env t c "institutional_holders" "institutional_holders").2.1
                 "major_holders" "major_holders").2.1
               "recommendations" "recommendations").2.2)) := by
  rw [get_holders_and_recommendations]
  show holdLoop env t true
      (("institutional_holders", "institutional_holders") ::
       ("major_holders", "major_holders") :: ("recommendations", "recommendations") :: [])
      ([], c, []) = _
  rw [holdLoop_cons_resolve env t _ _ _ _ _ _ (hW _),
      holdLoop_cons_resolve env t _ _ _ _ _ _ (hW _),
      holdLoop_cons_resolve env t _ _ _ _ _ _ (hW _)]
  simp [holdLoop]

/-- A resolution step never touches the cache at any other path. -/
theorem stmtResolve_other (env : Env) (t : String) (pf : String → String) (c : Cache)
    (name yfAttr : String) (p : String) (hp : p ≠ pf name) :
    (stmtResolve env t pf c name yfAttr).2.1 p = c p := by
  cases hcp : c (pf name) with
  | some a => simp [stmtResolve, hcp]
  | none =>
    cases hE : (env.provider.attr t yfAttr).empty? with
    | true => simp [stmtResolve, hcp, hE]
    | false => simp [stmtResolve, hcp, hE, Cache.write_ne _ _ hp]

theorem holdResolve_other (env : Env) (t : String) (c : Cache)
    (name yfAttr : String) (p : String) (hp : p ≠ subPath t name) :
    (holdResolve env t c name yfAttr).2.1 p = c p := by
  cases hcp : c (subPath t name) with
  | some a => simp [holdResolve, hcp]
  | none =>
    cases hdf : env.provider.attrOpt t yfAttr with
    | none => simp [holdResolve, hcp, hdf]
    | some df =>
      cases hE : df.empty? with
      | true => simp [holdResolve, hcp, hdf, hE]
      | false => simp [holdResolve, hcp, hdf, hE, Cache.write_ne _ _ hp]

/-- Every query a resolution step logs is that sub-kind's own query. -/
theorem stmtResolve_log (env : Env) (t : String) (pf : String → String) (c : Cache)
    (name yfAttr : String) (q : Query) (hq : q ∈ (stmtResolve env t pf c name yfAttr).2.2) :
    q = Query.attr t yfAttr := by
  cases hcp : c (pf name) with
  | some a => simp [stmtResolve, hcp] at hq
  | none =>
    cases hE : (env.provider.attr t yfAttr).empty? with
    | true => simpa [stmtResolve, hcp, hE] using hq
    | false => simpa [stmtResolve, hcp, hE] using hq

theorem holdResolve_log (env : Env) (t : String) (c : Cache)
    (name yfAttr : String) (q : Query) (hq : q ∈ (holdResolve env t c name yfAttr).2.2) :
    q = Query.attr t yfAttr := by
  cases hcp : c (subPath t name) with
  | some a => simp [holdResolve, hcp] at hq
  | none =>
    cases hdf : env.provider.attrOpt t yfAttr with
    | none => simpa [holdResolve, hcp, hdf] using hq
    | some df =>
      cases hE : df.empty? with
      | true => simpa [holdResolve, hcp, hdf, hE] using hq
      | false => simpa [holdResolve, hcp, hdf, hE] using hq

theorem query_attr_ne (t : String) {a1 a2 : String} (h : a1 ≠ a2) :
    Query.attr t a1 ≠ Query.attr t a2 := by
  intro he
  injection he with h1 h2
  exact h h2

theorem stmtResolve_hit (env : Env) (t : String) (pf : String → String) (c : Cache)
    (name yfAttr : String) (a : Artifact) (hca : c (pf name) = some a) :
    stmtResolve env t pf c name yfAttr = (readStmt a, c, []) := by
  simp [stmtResolve, hca]

theorem stmtResolve_miss (env : Env) (t : String) (pf : String → String) (c : Cache)
    (name yfAttr : String) (hca : c (pf name) = none) :
    (stmtResolve env t pf c name yfAttr).1 = env.provider.attr t yfAttr ∧
    (stmtResolve env t pf c name yfAttr).2.2 = [Query.attr t yfAttr] ∧
    (stmtResolve env t pf c name yfAttr).2.1 (pf name) =
      (if (env.provider.attr t yfAttr).empty? = true then none
       else some (encodeIndexed (env.provider.attr t yfAttr))) := by
  cases hE : (env.provider.attr t yfAttr).empty? with
  | true => simp [stmtResolve, hca, hE]
  | false => simp [stmtResolve, hca, hE, Cache.write_self]

theorem holdResolve_hit (env : Env) (t : String) (c : Cache)
    (name yfAttr : String) (a : Artifact) (hca : c (subPath t name) = some a) :
    holdResolve env t c name yfAttr = (readFlat a, c, []) := by
  simp [holdResolve, hca]

theorem holdResolve_miss (env : Env) (t : String) (c : Cache)
    (name yfAttr : String) (hca : c (subPath t name) = none) :
    (holdResolve env t c name yfAttr).2.2 = [Query.attr t yfAttr] ∧
    (match env.provider.attrOpt t yfAttr with
     | some df =>
       if df.empty? = true then
         (holdResolve env t c name yfAttr).1 = Table.emptyT ∧
         (holdResolve env t c name yfAttr).2.1 (subPath t name) = none
       else
         (holdResolve env t c name yfAttr).1 = df ∧
         (holdResolve env t c name yfAttr).2.1 (subPath t name) = some (encodeFlat df)
     | none =>
       (holdResolve env t c name yfAttr).1 = Table.emptyT ∧
       (holdResolve env t c name yfAttr).2.1 (subPath t name) = none) := by
  cases hdf : env.provider.attrOpt t yfAttr with
  | none => simp [holdResolve, hca, hdf]
  | some df =>
    cases hE : df.empty? with
    | true => simp [holdResolve, hca, hdf, hE]
    | false => simp [holdResolve, hca, hdf, hE, Cache.write_self]

/-! ### Claim C5: independent per-sub-kind resolution of partial bundles -/

/-- The spec's per-sub-kind resolution property for a statement bundle
call made on cache `c` that returned table `x` for the sub-kind, final
cache `c2` and call log `log`: a cached sub-kind is read from storage (no
remote call for it, entry untouched); an uncached one is freshly fetched
and cached exactly when non-empty. -/
def subProp (env : Env) (t : String) (c : Cache) (pf : String → String)
    (x : Table) (c2 : Cache) (log : List Query) (name yfAttr : String) : Prop :=
  (∀ a, c (pf name) = some a →
    x = readStmt a ∧ c2 (pf name) = some a ∧ Query.attr t yfAttr ∉ log) ∧
  (c (pf name) = none →
    x = env.provider.attr t yfAttr ∧ Query.attr t yfAttr ∈ log ∧
    c2 (pf name) = (if (env.provider.attr t yfAttr).empty? = true then none
                    else some (encodeIndexed (env.provider.attr t yfAttr))))

/-- The analogous per-sub-kind property for the holders bundle, whose
provider accessor may yield `None` and whose empty/`None` responses are
bound as a fresh empty table and not cached. -/
def holdProp (env : Env) (t : String) (c : Cache)
    (x : Table) (c2 : Cache) (log : List Query) (name yfAttr : String) : Prop :=
  (∀ a, c (subPath t name) = some a →
    x = readFlat a ∧ c2 (subPath t name) = some a ∧ Query.attr t yfAttr ∉ log) ∧
  (c (subPath t name) = none →
    Query.attr t yfAttr ∈ log ∧
    (match env.provider.attrOpt t yfAttr with
     | some df =>
       if df.empty? = true then x = Table.emptyT ∧ c2 (subPath t name) = none
       else x = df ∧ c2 (subPath t name) = some (encodeFlat df)
     | none => x = Table.emptyT ∧ c2 (subPath t name) = none))

/-- **C5.** For every identifier and every cache state — in particular one
where some sub-kinds are cached and others are not — the statement-bundle
and holders-bundle fetches resolve each sub-kind independently: the call
succeeds, the returned bundle binds every sub-kind in order, and each
sub-kind satisfies its resolution property against the initial cache
(cached → read from storage, uncached → freshly fetched and cached iff
non-empty). -/
theorem claim5_partial_bundle_resolution :
    ∀ (env : Env) (t : String) (c : Cache), (∀ p, env.writeOk p = true) →
    (∃ x1 x2 x3 c2 log,
      get_company_financials env c t true =
        .ok ([("income_stmt", x1), ("balance_sheet", x2), ("cashflow", x3)], c2, log) ∧
      subProp env t c (subPath t) x1 c2 log "income_stmt" "financials" ∧
      subProp env t c (subPath t) x2 c2 log "balance_sheet" "balance_sheet" ∧
      subProp env t c (subPath t) x3 c2 log "cashflow" "cashflow") ∧
    (∃ y1 y2 y3 c3 log2,
      get_holders_and_recommendations env c t true =
        .ok ([("institutional_holders", y1), ("major_holders", y2),
              ("recommendations", y3)], c3, log2) ∧
      holdProp env t c y1 c3 log2 "institutional_holders" "institutional_holders" ∧
      holdProp env t c y2 c3 log2 "major_holders" "major_holders" ∧
      holdProp env t c y3 c3 log2 "recommendations" "recommendations") := by
  intro env t c hW
  constructor
  · have n12 : subPath t "income_stmt" ≠ subPath t "balance_sheet" := keyPath_ne t (by decide)
    have n13 : subPath t "income_stmt" ≠ subPath t "cashflow" := keyPath_ne t (by decide)
    have n23 : subPath t "balance_sheet" ≠ subPath t "cashflow" := keyPath_ne t (by decide)
    refine ⟨_, _, _, _, _, get_company_financials_spec env c t hW, ?_, ?_, ?_⟩
    · constructor
      · intro a hca
        rw [stmtResolve_hit env t (subPath t) c "income_stmt" "financials" a hca]
        refine ⟨rfl, ?_, ?_⟩
        · rw [stmtResolve_other env t (subPath t) _ "cashflow" "cashflow" _ n13,
              stmtResolve_other env t (subPath t) _ "balance_sheet" "balance_sheet" _ n12]
          exact hca
        · intro hmem
          rcases List.mem_append.mp (by simpa using hmem) with hm | hm
          · exact absurd (stmtResolve_log env t (subPath t) _ "balance_sheet" "balance_sheet"
              _ hm) (query_attr_ne t (by decide))
          · exact absurd (stmtResolve_log env t (subPath t) _ "cashflow" "cashflow"
              _ hm) (query_attr_ne t (by decide))
      · intro hca
        obtain ⟨h1x, h1log, h1own⟩ :=
          stmtResolve_miss env t (subPath t) c "income_stmt" "financials" hca
        refine ⟨h1x, ?_, ?_⟩
        · rw [h1log]
          simp
        · rw [stmtResolve_other env t (subPath t) _ "cashflow" "cashflow" _ n13,
              stmtResolve_other env t (subPath t) _ "balance_sheet" "balance_sheet" _ n12]
          exact h1own
    · constructor
      · intro a hca
        have hc1 : (stmtResolve env t (subPath t) c "income_stmt" "financials").2.1
            (subPath t "balance_sheet") = some a := by
          rw [stmtResolve_other env t (subPath t) c "income_stmt" "financials" _ (Ne.symm n12)]
          exact hca
        rw [stmtResolve_hit env t (subPath t) _ "balance_sheet" "balance_sheet" a hc1]
        refine ⟨rfl, ?_, ?_⟩
        · rw [stmtResolve_other env t (subPath t) _ "cashflow" "cashflow" _ n23]
          exact hc1
        · intro hmem
          rcases List.mem_append.mp hmem with hm | hm
          · exact absurd (stmtResolve_log env t (subPath t) _ "income_stmt" "financials"
              _ hm) (query_attr_ne t (by decide))
          · rcases List.mem_append.mp hm with hm2 | hm2
            · simp at hm2
            · exact absurd (stmtResolve_log env t (subPath t) _ "cashflow" "cashflow"
                _ hm2) (query_attr_ne t (by decide))
      · intro hca
        have hc1 : (stmtResolve env t (subPath t) c "income_stmt" "financials").2.1
            (subPath t "balance_sheet") = none := by
          rw [stmtResolve_other env t (subPath t) c "income_stmt" "financials" _ (Ne.symm n12)]
          exact hca
        obtain ⟨h2x, h2log, h2own⟩ :=
          stmtResolve_miss env t (subPath t) _ "balance_sheet" "balance_sheet" hc1
        refine ⟨h2x, ?_, ?_⟩
        · rw [h2log]
          simp
        · rw [stmtResolve_other env t (subPath t) _ "cashflow" "cashflow" _ n23]
          exact h2own
    · constructor
      · intro a hca
        have hc2 : (stmtResolve env t (subPath t)
            (stmtResolve env t (subPath t) c "income_stmt" "financials").2.1
            "balance_sheet" "balance_sheet").2.1 (subPath t "cashflow") = some a := by
          rw [stmtResolve_other env t (subPath t) _ "balance_sheet" "balance_sheet"
                _ (Ne.symm n23),
              stmtResolve_other env t (subPath t) c "income_stmt" "financials" _ (Ne.symm n13)]
          exact hca
        rw [stmtResolve_hit env t (subPath t) _ "cashflow" "cashflow" a hc2]
        refine ⟨rfl, hc2, ?_⟩
        intro hmem
        rcases List.mem_append.mp hmem with hm | hm
        · exact absurd (stmtResolve_log env t (subPath t) _ "income_stmt" "financials"
            _ hm) (query_attr_ne t (by decide))
        · rcases List.mem_append.mp hm with hm2 | hm2
          · exact absurd (stmtResolve_log env t (subPath t) _ "balance_sheet" "balance_sheet"
              _ hm2) (query_attr_ne t (by decide))
          · simp at hm2
      · intro hca
        have hc2 : (stmtResolve env t (subPath t)
            (stmtResolve env t (subPath t) c "income_stmt" "financials").2.1
            "balance_sheet" "balance_sheet").2.1 (subPath t "cashflow") = none := by
          rw [stmtResolve_other env t (subPath t) _ "balance_sheet" "balance_sheet"
                _ (Ne.symm n23),
              stmtResolve_other env t (subPath t) c "income_stmt" "financials" _ (Ne.symm n13)]
          exact hca
        obtain ⟨h3x, h3log, h3own⟩ :=
          stmtResolve_miss env t (subPath t) _ "cashflow" "cashflow" hc2
        refine ⟨h3x, ?_, h3own⟩
        rw [h3log]
        simp
  · have n12 : subPath t "institutional_holders" ≠ subPath t "major_holders" :=
      keyPath_ne t (by decide)
    have n13 : subPath t "institutional_holders" ≠ subPath t "recommendations" :=
      keyPath_ne t (by decide)
    have n23 : subPath t "major_holders" ≠ subPath t "recommendations" :=
      keyPath_ne t (by decide)
    refine ⟨_, _, _, _, _, get_holders_spec env c t hW, ?_, ?_, ?_⟩
    · constructor
      · intro a hca
        rw [holdResolve_hit env t c "institutional_holders" "institutional_holders" a hca]
        refine ⟨rfl, ?_, ?_⟩
        · rw [holdResolve_other env t _ "recommendations" "recommendations" _ n13,
              holdResolve_other env t _ "major_holders" "major_holders" _ n12]
          exact hca
        · intro hmem
          rcases List.mem_append.mp (by simpa using hmem) with hm | hm
          · exact absurd (holdResolve_log env t _ "major_holders" "major_holders" _ hm)
              (query_attr_ne t (by decide))
          · exact absurd (holdResolve_log env t _ "recommendations" "recommendations" _ hm)
              (query_attr_ne t (by decide))
      · intro hca
        obtain ⟨h1log, h1rest⟩ :=
          holdResolve_miss env t c "institutional_holders" "institutional_holders" hca
        refine ⟨?_, ?_⟩
        · rw [h1log]
          simp
        · rw [holdResolve_other env t _ "recommendations" "recommendations" _ n13,
              holdResolve_other env t _ "major_holders" "major_holders" _ n12]
          exact h1rest
    · constructor
      · intro a hca
        have hc1 : (holdResolve env t c "institutional_holders" "institutional_holders").2.1
            (subPath t "major_holders") = some a := by
          rw [holdResolve_other env t c "institutional_holders" "institutional_holders"
                _ (Ne.symm n12)]
          exact hca
        rw [holdResolve_hit env t _ "major_holders" "major_holders" a hc1]
        refine ⟨rfl, ?_, ?_⟩
        · rw [holdResolve_other env t _ "recommendations" "recommendations" _ n23]
          exact hc1
        · intro hmem
          rcases List.mem_append.mp hmem with hm | hm
          · exact absurd (holdResolve_log env t _ "institutional_holders"
              "institutional_holders" _ hm) (query_attr_ne t (by decide))
          · rcases List.mem_append.mp hm with hm2 | hm2
            · simp at hm2
            · exact absurd (holdResolve_log env t _ "recommendations" "recommendations" _ hm2)
                (query_attr_ne t (by decide))
      · intro hca
        have hc1 : (holdResolve env t c "institutional_holders" "institutional_holders").2.1
            (subPath t "major_holders") = none := by
          rw [holdResolve_other env t c "institutional_holders" "institutional_holders"
                _ (Ne.symm n12)]
          exact hca
        obtain ⟨h2log, h2rest⟩ := holdResolve_miss env t _ "major_holders" "major_holders" hc1
        refine ⟨?_, ?_⟩
        · rw [h2log]
          simp
        · rw [holdResolve_other env t _ "recommendations" "recommendations" _ n23]
          exact h2rest
    · constructor
      · intro a hca
        have hc2 : (holdResolve env t
            (holdResolve env t c "institutional_holders" "institutional_holders").2.1
            "major_holders" "major_holders").2.1 (subPath t "recommendations") = some a := by
          rw [holdResolve_other env t _ "major_holders" "major_holders" _ (Ne.symm n23),
              holdResolve_other env t c "institutional_holders" "institutional_holders"
                _ (Ne.symm n13)]
          exact hca
        rw [holdResolve_hit env t _ "recommendations" "recommendations" a hc2]
        refine ⟨rfl, hc2, ?_⟩
        intro hmem
        rcases List.mem_append.mp hmem with hm | hm
        · exact absurd (holdResolve_log env t _ "institutional_holders"
            "institutional_holders" _ hm) (query_attr_ne t (by decide))
        · rcases List.mem_append.mp hm with hm2 | hm2
          · exact absurd (holdResolve_log env t _ "major_holders" "major_holders" _ hm2)
              (query_attr_ne t (by decide))
          · simp at hm2
      · intro hca
        have hc2 : (holdResolve env t
            (holdResolve env t c "institutional_holders" "institutional_holders").2.1
            "major_holders" "major_holders").2.1 (subPath t "recommendations") = none := by
          rw [holdResolve_other env t _ "major_holders" "major_holders" _ (Ne.symm n23),
              holdResolve_other env t c "institutional_holders" "institutional_holders"
                _ (Ne.symm n13)]
          exact hca
        obtain ⟨h3log, h3rest⟩ :=
          holdResolve_miss env t _ "recommendations" "recommendations" hc2
        refine ⟨?_, h3rest⟩
        rw [h3log]
        simp

/-! ### Claim C10: holders bundle always binds all three sub-kinds -/

theorem holdLoop_names (env : Env) (t : String) (uc : Bool) :
    ∀ (l : List (String × String)) (fin : List (String × Table)) (c : Cache)
      (log : List Query) (out : List (String × Table) × Cache × List Query),
    holdLoop env t uc l (fin, c, log) = .ok out →
    out.1.map Prod.fst = fin.map Prod.fst ++ l.map Prod.fst := by
  intro l
  induction l with
  | nil =>
    intro fin c log out h
    simp only [holdLoop, Except.ok.injEq] at h
    rw [← h]
    simp
  | cons nt rest ih =>
    obtain ⟨name, yfAttr⟩ := nt
    intro fin c log out h
    have step : ∀ (x : Table) (c' : Cache) (log' : List Query),
        holdLoop env t uc rest (fin ++ [(name, x)], c', log') = .ok out →
        out.1.map Prod.fst = fin.map Prod.fst ++ (name, yfAttr).1 :: rest.map Prod.fst := by
      intro x c' log' hh
      have := ih (fin ++ [(name, x)]) c' log' out hh
      simpa using this
    cases uc with
    | false =>
      simp only [holdLoop] at h
      cases hdf : env.provider.attrOpt t yfAttr with
      | none =>
        simp only [hdf] at h
        exact step _ _ _ h
      | some df =>
        simp only [hdf] at h
        cases hE : df.empty? with
        | true =>
          rw [if_pos hE] at h
          exact step _ _ _ h
        | false =>
          rw [if_neg (by simp [hE])] at h
          cases hW : env.writeOk (subPath t name) with
          | false => rw [writeCache, if_neg (by simp [hW])] at h; cases h
          | true =>
            rw [writeCache, if_pos hW] at h
            exact step _ _ _ h
    | true =>
      cases hcp : c (subPath t name) with
      | some a =>
        simp only [holdLoop, hcp] at h
        exact step _ _ _ h
      | none =>
        simp only [holdLoop, hcp] at h
        cases hdf : env.provider.attrOpt t yfAttr with
        | none =>
          simp only [hdf] at h
          exact step _ _ _ h
        | some df =>
          simp only [hdf] at h
          cases hE : df.empty? with
          | true =>
            rw [if_pos hE] at h
            exact step _ _ _ h
          | false =>
            rw [if_neg (by simp [hE])] at h
            cases hW : env.writeOk (subPath t name) with
            | false => rw [writeCache, if_neg (by simp [hW])] at h; cases h
            | true =>
              rw [writeCache, if_pos hW] at h
              exact step _ _ _ h

/-- **C10.** The holders-and-recommendations fetch binds each of the three
sub-kinds to a table value in every successful call (first conjunct: the
returned mapping's keys are exactly the three sub-kind names, in order).
And on the fetch path, when the provider yields `None` or an empty table
for every sub-kind, the returned mapping binds each sub-kind to an empty
table, the cache is returned unchanged (no entry written), and the three
remote accesses are still performed. -/
theorem claim10_holders_total_binding :
    (∀ (env : Env) (c : Cache) (t : String) (uc : Bool)
       (out : List (String × Table) × Cache × List Query),
      get_holders_and_recommendations env c t uc = .ok out →
      out.1.map Prod.fst = ["institutional_holders", "major_holders", "recommendations"]) ∧
    (∀ (env : Env) (c : Cache) (t : String),
      (∀ p ∈ kindPaths .holdersRecs t, c p = none) →
      (∀ nt ∈ holder_types, env.provider.attrOpt t nt.2 = none ∨
        ∃ df, env.provider.attrOpt t nt.2 = some df ∧ df.empty? = true) →
      get_holders_and_recommendations env c t true =
        .ok ([("institutional_holders", Table.emptyT), ("major_holders", Table.emptyT),
              ("recommendations", Table.emptyT)], c,
             [Query.attr t "institutional_holders", Query.attr t "major_holders",
              Query.attr t "recommendations"])) := by
  constructor
  · intro env c t uc out h
    have := holdLoop_names env t uc holder_types [] c [] out h
    simpa [holder_types] using this
  · intro env c t hmiss hemp
    have h1 : c (subPath t "institutional_holders") = none :=
      hmiss _ (by simp [kindPaths, holder_types])
    have h2 : c (subPath t "major_holders") = none := hmiss _ (by simp [kindPaths, holder_types])
    have h3 : c (subPath t "recommendations") = none :=
      hmiss _ (by simp [kindPaths, holder_types])
    have d1 := hemp ("institutional_holders", "institutional_holders") (by simp [holder_types])
    have d2 := hemp ("major_holders", "major_holders") (by simp [holder_types])
    have d3 := hemp ("recommendations", "recommendations") (by simp [holder_types])
    rcases d1 with hd1 | ⟨df1, hd1, he1⟩ <;> rcases d2 with hd2 | ⟨df2, hd2, he2⟩ <;>
      rcases d3 with hd3 | ⟨df3, hd3, he3⟩ <;>
      simp_all [get_holders_and_recommendations, holdLoop, holder_types]

/-! ### Claim C8: cache-write failure after a successful fetch — corrected

The claim states that the fetched record is returned "regardless of the
outcome of the subsequent cache write".  In the code there is no handler
around `df.to_csv(cache_file)` / `json.dump`: a failing write raises, the
exception propagates, and the function never reaches its `return` — the
caller does not receive the fetched record.  The counterexample exhibits
this; the amendment states what actually holds. -/

/-- All writes fail: every `to_csv` / `json.dump` raises. -/
def envW : Env :=
  ⟨⟨fun _ _ _ => tblB, fun _ _ => tblB, fun _ _ => some tblB, fun _ => [("k", "v")]⟩,
   fun _ => false⟩

def cEmpty : Cache := fun _ => none

/-- **C8, counterexample.** The provider returns a non-empty record, the
subsequent cache write fails — and the call returns an error rather than
the fetched record: the in-memory result is *not* returned to the
caller, contradicting the claim as stated. -/
theorem claim8_counterexample :
    (envW.provider.download "AAPL" "2023-01-01" none).empty? = false ∧
    get_stock_data envW cEmpty "AAPL" "2023-01-01" none true = .error () := by
  exact ⟨by decide, rfl⟩

/-- **C8, amended.** After a remote fetch whose responses are non-empty
(on a cache miss for the kind's keys): if every cache write succeeds, the
call returns the fetched record; if the cache writes fail, the write's
exception propagates and the call returns an error — the fetched record is
returned exactly when the cache writes do not raise (and, per C2, when the
record is empty no write is attempted at all). -/
theorem claim8_amended_write_failure_propagates :
    ∀ (env : Env) (k : DataKind) (t : String) (c : Cache) (uc : Bool),
    (∀ p ∈ kindPaths k t, c p = none) →
    ProviderNonEmpty env k t →
    ((∀ p ∈ kindPaths k t, env.writeOk p = true) →
      ∃ c1, fetch env c k t uc = .ok (freshResult env k t, c1, kindQueries k t)) ∧
    ((∀ p, env.writeOk p = false) →
      fetch env c k t uc = .error ()) := by
  intro env k t c uc hmiss hne
  constructor
  · intro hw
    obtain ⟨r, c1, h1, hr, _⟩ := fetch_roundtrip_aux env k t c uc hmiss hw hne
    exact ⟨c1, by rw [← hr]; exact h1⟩
  · intro hwf
    cases k
    case priceSeries =>
      have h0 : c (pricePath t) = none := hmiss _ (by simp [kindPaths])
      have e0 : (env.provider.download t "2023-01-01" none).empty? = false := hne
      cases uc <;> simp [fetch, get_stock_data, h0, e0, writeCache, hwf]
    case annualStatements =>
      have h1 : c (subPath t "income_stmt") = none := hmiss _ (by simp [kindPaths, annual_types])
      have e1 : (env.provider.attr t "financials").empty? = false :=
        hne ("income_stmt", "financials") (by simp [annual_types])
      cases uc <;>
        simp [fetch, get_company_financials, stmtLoop, annual_types, h1, e1, writeCache, hwf]
    case quarterlyStatements =>
      have h1 : c (quarterlyPath t "income_stmt") = none :=
        hmiss _ (by simp [kindPaths, quarterly_types])
      have e1 : (env.provider.attr t "quarterly_financials").empty? = false :=
        hne ("income_stmt", "quarterly_financials") (by simp [quarterly_types])
      cases uc <;>
        simp [fetch, get_quarterly_financials, stmtLoop, quarterly_types, h1, e1,
          writeCache, hwf]
    case companyInfo =>
      have h0 : c (infoPath t) = none := hmiss _ (by simp [kindPaths])
      have e0 : (env.provider.info t).isEmpty = false := hne
      cases uc <;> simp [fetch, get_company_info, h0, e0, writeCache, hwf]
    case holdersRecs =>
      have h1 : c (subPath t "institutional_holders") = none :=
        hmiss _ (by simp [kindPaths, holder_types])
      obtain ⟨df1, hd1, he1⟩ := hne ("institutional_holders", "institutional_holders")
        (by simp [holder_types])
      cases uc <;>
        simp [fetch, get_holders_and_recommendations, holdLoop, holder_types, h1,
          hd1, he1, writeCache, hwf]

/-! ### Claim C9: the treasury-yield accessor is a thin specialization -/

/-- Spec-side definition for the refinement claim: the risk-free-rate
accessor is the price-series accessor applied to the same arguments with
the `Close` column sliced out of its result — the same cache, the same
remote-call log, no separate remote call of its own. -/
def treasuryYieldSpec (env : Env) (c : Cache) (ticker start : String)
    (stop : Option String) (use_cache : Bool) : Except Unit (Series × Cache × List Query) :=
  (get_stock_data env c ticker start stop use_cache).bind fun r =>
    (Table.getCol r.1 "Close").map fun s => (s, r.2.1, r.2.2)

/-- **C9.** For every ticker, start, end and use_cache, `get_treasury_yield`
is exactly the price-series accessor followed by slicing out the `Close`
column: it equals the spec-side composition (same cache, same remote-call
log — in particular zero remote calls beyond those of `get_stock_data`),
its Python defaults differ from `get_stock_data`'s only in the identifier
(`"^TNX"`) and the start date (`"2019-01-01"`), and whenever the
price-series call returns `(df, c2, log)` and `df` has a `Close` column,
the treasury call returns that column as a series with the same final
cache `c2` and the same log `log`. -/
theorem claim9_treasury_specialization :
    (∀ (env : Env) (c : Cache) (ticker start : String) (stop : Option String) (uc : Bool),
      get_treasury_yield env c ticker start stop uc =
        treasuryYieldSpec env c ticker start stop uc) ∧
    get_treasury_yield_defaults = ("^TNX", "2019-01-01", none, true) ∧
    get_stock_data_defaults = ("2023-01-01", none, true) ∧
    (∀ (env : Env) (c : Cache) (ticker start : String) (stop : Option String) (uc : Bool)
       (df : Table) (c2 : Cache) (log : List Query),
      get_stock_data env c ticker start stop uc = .ok (df, c2, log) →
      ∀ s, Table.getCol df "Close" = .ok s →
        get_treasury_yield env c ticker start stop uc = .ok (s, c2, log)) := by
  refine ⟨?_, rfl, rfl, ?_⟩
  · intro env c ticker start stop uc
    rw [get_treasury_yield, treasuryYieldSpec]
    cases hg : get_stock_data env c ticker start stop uc with
    | error e => rfl
    | ok r =>
      obtain ⟨df, c2, log⟩ := r
      cases hcol : Table.getCol df "Close" with
      | error e => simp [Except.bind, Except.map, hcol]
      | ok s => simp [Except.bind, Except.map, hcol]
  · intro env c ticker start stop uc df c2 log hg s hcol
    simp only [get_treasury_yield, hg, hcol]

/-! ### Concrete instances witnessing the claims -/

/-- The spec's scenario table: two dated rows with `Close` values. -/
def tPrice : Table :=
  ⟨[Label.date ⟨2023, 1, 2⟩, Label.date ⟨2023, 1, 3⟩],
   [Label.str "Open", Label.str "Close"],
   [["1", "100.0"], ["2", "101.5"]]⟩

def tStmt : Table :=
  ⟨[Label.str "Total Revenue"], [Label.date ⟨2023, 12, 31⟩], [["5"]]⟩

def tHold : Table := ⟨[Label.str "0"], [Label.str "Holder"], [["Vanguard"]]⟩

/-- A provider with non-empty responses of every kind; all writes succeed. -/
def env1 : Env :=
  ⟨⟨fun _ _ _ => tPrice, fun _ _ => tStmt, fun _ _ => some tHold, fun _ => [("beta", "1.2")]⟩,
   fun _ => true⟩

/-- A delisted-identifier provider: every response empty or `None`. -/
def envE : Env :=
  ⟨⟨fun _ _ _ => Table.emptyT, fun _ _ => Table.emptyT, fun _ _ => none, fun _ => []⟩,
   fun _ => true⟩

/-- A partially populated cache: only `balance_sheet` is cached. -/
def cPart : Cache := Cache.write cEmpty (subPath "ACME" "balance_sheet") (encodeIndexed tStmt)

theorem claim1_witness :
    (∀ p ∈ kindPaths .priceSeries "ACME", cEmpty p = none) ∧
    (∀ p ∈ kindPaths .priceSeries "ACME", env1.writeOk p = true) ∧
    ProviderNonEmpty env1 .priceSeries "ACME" ∧
    (∃ r c1, fetch env1 cEmpty .priceSeries "ACME" true =
        .ok (r, c1, kindQueries .priceSeries "ACME") ∧
      r = freshResult env1 .priceSeries "ACME" ∧
      fetch env1 c1 .priceSeries "ACME" true = .ok (roundTripK .priceSeries r, c1, [])) := by
  refine ⟨fun p _ => rfl, fun p _ => rfl, rfl, ?_⟩
  exact claim1_cache_roundtrip env1 .priceSeries "ACME" cEmpty true
    (fun p _ => rfl) (fun p _ => rfl) rfl

theorem claim2_witness :
    (∀ p ∈ kindPaths .annualStatements "ZZZZ", cEmpty p = none) ∧
    ProviderEmpty envE .annualStatements "ZZZZ" ∧
    (fetch envE cEmpty .annualStatements "ZZZZ" true =
       .ok (freshResult envE .annualStatements "ZZZZ", cEmpty,
            kindQueries .annualStatements "ZZZZ") ∧
     kindQueries .annualStatements "ZZZZ" ≠ []) := by
  refine ⟨fun p _ => rfl, fun nt _ => rfl, ?_⟩
  exact claim2_empty_never_persisted envE .annualStatements "ZZZZ" cEmpty
    (fun p _ => rfl) (fun nt _ => rfl)

theorem claim3_witness :
    cA (pricePath "AAPL") = some (encodeIndexed tblA) ∧
    ∃ out, fetch envB cA .priceSeries "AAPL" true = .ok out ∧
      out.2.1 (pricePath "AAPL") = some (encodeIndexed tblA) := by
  refine ⟨rfl, _, rfl, ?_⟩
  exact claim3_amended_write_once envB .priceSeries "AAPL" cA _
    (pricePath "AAPL") (encodeIndexed tblA) rfl rfl

theorem claim4_witness :
    ('_' ∉ ("AAPL" : String).data) ∧
    (⟨"AAPL", .price⟩ : CacheKey) ≠ ⟨"AAPL", .infoT⟩ ∧
    CacheKey.path ⟨"AAPL", .price⟩ ≠ CacheKey.path ⟨"AAPL", .infoT⟩ := by
  refine ⟨by decide, by decide, ?_⟩
  exact claim4_amended_path_injective _ _ (by decide) (by decide) (by decide)

theorem claim5_witness :
    (∀ p, env1.writeOk p = true) ∧
    (∃ x1 x2 x3 c2 log,
      get_company_financials env1 cPart "ACME" true =
        .ok ([("income_stmt", x1), ("balance_sheet", x2), ("cashflow", x3)], c2, log) ∧
      subProp env1 "ACME" cPart (subPath "ACME") x1 c2 log "income_stmt" "financials" ∧
      subProp env1 "ACME" cPart (subPath "ACME") x2 c2 log "balance_sheet" "balance_sheet" ∧
      subProp env1 "ACME" cPart (subPath "ACME") x3 c2 log "cashflow" "cashflow") ∧
    (∃ y1 y2 y3 c3 log2,
      get_holders_and_recommendations env1 cPart "ACME" true =
        .ok ([("institutional_holders", y1), ("major_holders", y2),
              ("recommendations", y3)], c3, log2) ∧
      holdProp env1 "ACME" cPart y1 c3 log2 "institutional_holders" "institutional_holders" ∧
      holdProp env1 "ACME" cPart y2 c3 log2 "major_holders" "major_holders" ∧
      holdProp env1 "ACME" cPart y3 c3 log2 "recommendations" "recommendations") := by
  refine ⟨fun p => rfl, ?_, ?_⟩
  · exact (claim5_partial_bundle_resolution env1 "ACME" cPart (fun p => rfl)).1
  · exact (claim5_partial_bundle_resolution env1 "ACME" cPart (fun p => rfl)).2

theorem claim6_witness :
    tStmt.empty? = false ∧ tStmt.index.length = tStmt.rows.length ∧
    (readStmt (encodeIndexed tStmt)).index = tStmt.index ∧
    (readStmt (encodeIndexed tStmt)).rows = tStmt.rows ∧
    (readStmt (encodeIndexed tStmt)).cols = tStmt.cols := by
  have h := claim6_roundtrip_law tStmt (by decide) (by decide)
  have hidx : ∀ l ∈ tStmt.index, ∃ s, l = Label.str s := by
    intro l hl
    simp only [tStmt, List.mem_singleton] at hl
    exact ⟨_, hl⟩
  have hcols : ∀ l ∈ tStmt.cols, ∃ dt, l = Label.date dt ∧ dt.Valid := by
    intro l hl
    simp only [tStmt, List.mem_singleton] at hl
    exact ⟨_, hl, by decide⟩
  obtain ⟨hA, _, _⟩ := h
  obtain ⟨h1, h2, h3, _⟩ := hA hidx
  exact ⟨by decide, by decide, h1, h2, h3 hcols⟩

/-- A cached statement artifact whose sole column header (`"ttm"`) does not
parse as a date. -/
def gBad : Artifact := .grid ("" :: ["ttm"]) [["Revenue", "5"]]

def cBad : Cache :=
  Cache.write (Cache.write (Cache.write cEmpty
    (subPath "ACME" "income_stmt") gBad)
    (subPath "ACME" "balance_sheet") gBad)
    (subPath "ACME" "cashflow") gBad

theorem claim7_witness :
    parseAllDates ["ttm"] = none ∧
    (readStmt (.grid ("" :: ["ttm"]) [["Revenue", "5"]])).cols = ["ttm"].map Label.str ∧
    get_company_financials env1 cBad "ACME" true =
      .ok ([("income_stmt", readStmt (.grid ("" :: ["ttm"]) [["Revenue", "5"]])),
            ("balance_sheet", readStmt (.grid ("" :: ["ttm"]) [["Revenue", "5"]])),
            ("cashflow", readStmt (.grid ("" :: ["ttm"]) [["Revenue", "5"]]))], cBad, []) := by
  have h := claim7_bad_headers_swallowed "" "" "" ["ttm"] ["ttm"] ["ttm"]
    [["Revenue", "5"]] [["Revenue", "5"]] [["Revenue", "5"]]
    (by decide) (by decide) (by decide)
  exact ⟨by decide, h.1, h.2.1 env1 "ACME" cBad (by decide) (by decide) (by decide)⟩

theorem claim8_witness :
    (∀ p ∈ kindPaths .priceSeries "ACME", cEmpty p = none) ∧
    ProviderNonEmpty env1 .priceSeries "ACME" ∧
    (∃ c1, fetch env1 cEmpty .priceSeries "ACME" true =
      .ok (freshResult env1 .priceSeries "ACME", c1, kindQueries .priceSeries "ACME")) ∧
    ProviderNonEmpty envW .priceSeries "ACME" ∧
    fetch envW cEmpty .priceSeries "ACME" true = .error () := by
  refine ⟨fun p _ => rfl, rfl, ?_, rfl, ?_⟩
  · exact (claim8_amended_write_failure_propagates env1 .priceSeries "ACME" cEmpty true
      (fun p _ => rfl) rfl).1 (fun p _ => rfl)
  · exact (claim8_amended_write_failure_propagates envW .priceSeries "ACME" cEmpty true
      (fun p _ => rfl) rfl).2 (fun p => rfl)

theorem claim9_witness :
    ∃ df c2 log s,
      get_stock_data env1 cEmpty "ACME" "2023-01-01" none true = .ok (df, c2, log) ∧
      Table.getCol df "Close" = .ok s ∧
      get_treasury_yield env1 cEmpty "ACME" "2023-01-01" none true = .ok (s, c2, log) := by
  refine ⟨_, _, _, _, rfl, rfl, ?_⟩
  exact claim9_treasury_specialization.2.2.2 env1 cEmpty "ACME" "2023-01-01" none true
    _ _ _ rfl _ rfl

theorem claim10_witness :
    (∀ p ∈ kindPaths .holdersRecs "ZZZZ", cEmpty p = none) ∧
    (∀ nt ∈ holder_types, envE.provider.attrOpt "ZZZZ" nt.2 = none ∨
      ∃ df, envE.provider.attrOpt "ZZZZ" nt.2 = some df ∧ df.empty? = true) ∧
    get_holders_and_recommendations envE cEmpty "ZZZZ" true =
      .ok ([("institutional_holders", Table.emptyT), ("major_holders", Table.emptyT),
            ("recommendations", Table.emptyT)], cEmpty,
           [Query.attr "ZZZZ" "institutional_holders", Query.attr "ZZZZ" "major_holders",
            Query.attr "ZZZZ" "recommendations"]) := by
  refine ⟨fun p _ => rfl, fun nt _ => Or.inl rfl, ?_⟩
  exact claim10_holders_total_binding.2 envE cEmpty "ZZZZ"
    (fun p _ => rfl) (fun nt _ => Or.inl rfl)

end DcfData
